import Mathlib

/-!
# nebula-helper: identity provisioning workflow

A shallow embedding of `controller.go` and of the path handling of
`cmd/nebula-helper/nebula-helper.go`, with the operating-system and library
calls the code makes modelled explicitly:

* the lexical path functions of Go's `path` and `path/filepath` packages
  (`Clean`, `Join`, `Base`, `IsAbs`, `Abs`), by path elements;
* the URL value of `net/url` with its `String` rendering;
* a file system keyed by path, with the outcomes of `os.Remove`,
  `os.Create`, `os.Stat` and `os.ReadFile`;
* the remaining library calls (URL parsing, the HTTP round trip, JSON and
  YAML coding, curve25519 and the PEM marshalling of keys) as fields of an
  environment record.
-/

namespace NebulaHelper

/-! ## Lexical paths (Go `path` and `path/filepath` on Unix) -/

/-- Elements of a path: the pieces between the slashes, empty pieces included. -/
def splitSlash : List Char → List (List Char)
  | [] => [[]]
  | c :: cs =>
    if c = '/' then [] :: splitSlash cs
    else
      match splitSlash cs with
      | [] => [[c]]
      | x :: xs => (c :: x) :: xs

/-- Elements written back with a slash between neighbours. -/
def joinSlash : List (List Char) → List Char
  | [] => []
  | [x] => x
  | x :: y :: r => x ++ '/' :: joinSlash (y :: r)

/-- One round of the loop of `Clean`, on the element `e`; `out` is the output
written so far, most recent element first.  An empty element and `.` are
dropped; `..` removes the last real element when there is one, is kept when
the path is not rooted, and is dropped at the root; any other element is
appended. -/
def cleanStep (rooted : Bool) (out : List (List Char)) (e : List Char) : List (List Char) :=
  if e = [] ∨ e = ['.'] then out
  else if e = ['.', '.'] then
    match out with
    | top :: rest => if top = ['.', '.'] then (if rooted then out else e :: out) else rest
    | [] => if rooted then [] else [e]
  else e :: out

/-- The function `Clean` on the characters of a path. -/
def cleanL (p : List Char) : List Char :=
  let rooted : Bool := decide (p.head? = some '/')
  let out := (splitSlash p).foldl (cleanStep rooted) []
  if rooted then '/' :: joinSlash out.reverse
  else if out = [] then ['.']
  else joinSlash out.reverse

/-- The function `Base` on the characters of a path: trailing slashes are
stripped and the last element is returned; an empty path gives `.`, a path of
slashes only gives `/`. -/
def baseL (p : List Char) : List Char :=
  if p = [] then ['.']
  else
    let e := ((p.reverse.dropWhile (fun c => c = '/')).takeWhile (fun c => c ≠ '/')).reverse
    if e = [] then ['/'] else e

/-- Go `path.Clean` / `filepath.Clean`: the shortest path equivalent to `p` by
purely lexical processing. -/
def Clean (p : String) : String := ⟨cleanL p.data⟩

/-- Go `path.Join`: leading empty elements are ignored, the rest is joined
with slashes and cleaned; with nothing to join the result is empty. -/
def pathJoin (elem : List String) : String :=
  match elem.dropWhile (fun e => e = "") with
  | [] => ""
  | es => ⟨cleanL (joinSlash (es.map String.data))⟩

/-- Go `filepath.Join`, which on Unix computes what `path.Join` computes. -/
def filepathJoin (elem : List String) : String := pathJoin elem

/-- Go `filepath.Base`. -/
def filepathBase (p : String) : String := ⟨baseL p.data⟩

/-- Go `filepath.IsAbs` on Unix. -/
def IsAbs (p : String) : Bool := decide (p.data.head? = some '/')

/-- Go `filepath.Abs` for the working directory `wd`: the place a path names
to the operating system when no symbolic link is involved. -/
def Abs (wd p : String) : String :=
  if IsAbs p then Clean p else filepathJoin [wd, p]

/-! ## URLs (Go `net/url`) -/

/-- The part of a URL an escaping rule is applied to. -/
inductive Encoding
  | encodePath
  | encodePathSegment
  | encodeHost
  | encodeZone
  | encodeUserPassword
  | encodeQueryComponent
  | encodeFragment
deriving DecidableEq, Repr

/-- Go `url.shouldEscape` on an ASCII character: whether it must be written as
`%XX` in the given part of a URL. -/
def shouldEscape (c : Char) (mode : Encoding) : Bool :=
  if c.isAlphanum then false
  else if (mode = .encodeHost ∨ mode = .encodeZone) ∧
      c ∈ ['!', '$', '&', '\'', '(', ')', '*', '+', ',', ';', '=', ':', '[', ']', '<', '>', '"']
    then false
  else if c ∈ ['-', '_', '.', '~'] then false
  else if c ∈ ['$', '&', '+', ',', '/', ':', ';', '=', '?', '@'] ∧
      (mode = .encodePath ∨ mode = .encodePathSegment ∨ mode = .encodeUserPassword ∨
        mode = .encodeQueryComponent ∨ mode = .encodeFragment) then
    match mode with
    | .encodePath => decide (c = '?')
    | .encodePathSegment => decide (c = '/' ∨ c = ';' ∨ c = ',' ∨ c = '?')
    | .encodeUserPassword => decide (c = '@' ∨ c = '/' ∨ c = '?' ∨ c = ':')
    | .encodeQueryComponent => true
    | _ => false
  else if mode = .encodeFragment ∧ c ∈ ['!', '(', ')', '*'] then false
  else true

/-- The sixteen digits of `%XX`. -/
def upperhex : List Char := "0123456789ABCDEF".data

/-- One byte written as `%XX`. -/
def pctByte (b : UInt8) : List Char :=
  ['%', upperhex.getD (b.toNat / 16) '0', upperhex.getD (b.toNat % 16) '0']

/-- Go `url.escape` on the characters of a string: an ASCII character is kept
or escaped as `shouldEscape` says (a space in a query component becomes `+`),
and every byte of a character outside ASCII is escaped. -/
def escapeL (mode : Encoding) : List Char → List Char
  | [] => []
  | c :: r =>
    (if c.toNat < 128 then
      (if shouldEscape c mode then
        (if c = ' ' ∧ mode = .encodeQueryComponent then ['+']
         else pctByte (UInt8.ofNat c.toNat))
       else [c])
     else (String.utf8EncodeChar c).flatMap pctByte) ++ escapeL mode r

/-- Go `url.escape`. -/
def escape (s : String) (mode : Encoding) : String := ⟨escapeL mode s.data⟩

/-- Go `url.ishex`. -/
def ishex (c : Char) : Bool :=
  ('0' ≤ c ∧ c ≤ '9') ∨ ('a' ≤ c ∧ c ≤ 'f') ∨ ('A' ≤ c ∧ c ≤ 'F')

/-- Go `url.unhex`. -/
def unhex (c : Char) : Nat :=
  if '0' ≤ c ∧ c ≤ '9' then c.toNat - '0'.toNat
  else if 'a' ≤ c ∧ c ≤ 'f' then c.toNat - 'a'.toNat + 10
  else if 'A' ≤ c ∧ c ≤ 'F' then c.toNat - 'A'.toNat + 10
  else 0

/-- Go `url.unescape` for a path or a fragment, to bytes: `%XX` is decoded, a
`%` without two hexadecimal digits after it is an error. -/
def unescapeL : List Char → Option (List UInt8)
  | [] => some []
  | c :: r =>
    if c = '%' then
      match r with
      | a :: b :: r2 =>
        if ishex a ∧ ishex b then
          (unescapeL r2).map (fun t => UInt8.ofNat (unhex a * 16 + unhex b) :: t)
        else none
      | _ => none
    else (unescapeL r).map (fun t => String.utf8EncodeChar c ++ t)

/-- Go `url.validEncoded`: whether every character of an already escaped
string may stand in the given part of a URL. -/
def validEncoded (s : String) (mode : Encoding) : Bool :=
  s.data.all (fun c =>
    c ∈ ['!', '$', '&', '\'', '(', ')', '*', '+', ',', ';', '=', ':', '@', '[', ']', '%'] ∨
      (c.toNat < 128 ∧ ¬ shouldEscape c mode))

/-- The bytes of a string. -/
def bytesOf (s : String) : List UInt8 := s.data.flatMap String.utf8EncodeChar

/-- Go `url.URL`, with the user information as `(username, password if set)`. -/
structure URL where
  Scheme : String
  Opaque : String
  User : Option (String × Option String)
  Host : String
  Path : String
  RawPath : String
  OmitHost : Bool
  ForceQuery : Bool
  RawQuery : String
  Fragment : String
  RawFragment : String
deriving DecidableEq

/-- Go `(*URL).EscapedPath`: `RawPath` when it is a valid encoding of `Path`,
otherwise the escaped `Path`. -/
def URL.EscapedPath (u : URL) : String :=
  if u.RawPath ≠ "" ∧ validEncoded u.RawPath .encodePath ∧
      unescapeL u.RawPath.data = some (bytesOf u.Path) then u.RawPath
  else if u.Path = "*" then "*"
  else escape u.Path .encodePath

/-- Go `(*URL).EscapedFragment`. -/
def URL.EscapedFragment (u : URL) : String :=
  if u.RawFragment ≠ "" ∧ validEncoded u.RawFragment .encodeFragment ∧
      unescapeL u.RawFragment.data = some (bytesOf u.Fragment) then u.RawFragment
  else escape u.Fragment .encodeFragment

/-- Go `(*Userinfo).String`. -/
def userinfoString (ui : String × Option String) : String :=
  match ui.2 with
  | some pw => escape ui.1 .encodeUserPassword ++ ":" ++ escape pw .encodeUserPassword
  | none => escape ui.1 .encodeUserPassword

/-- Go `(*URL).String`: scheme, `//` with user information and host, path
(with a slash put before a path that lacks one when there is a host, and `./`
before a leading segment with a colon when nothing precedes it), query and
fragment. -/
def URL.String (u : URL) : String :=
  let s1 := if u.Scheme ≠ "" then u.Scheme ++ ":" else ""
  let s2 :=
    if u.Opaque ≠ "" then s1 ++ u.Opaque
    else
      let auth :=
        if u.Scheme ≠ "" ∨ u.Host ≠ "" ∨ u.User.isSome then
          if u.OmitHost ∧ u.Host = "" ∧ u.User.isNone then ""
          else
            (if u.Host ≠ "" ∨ u.Path ≠ "" ∨ u.User.isSome then "//" else "") ++
            (match u.User with
              | some ui => userinfoString ui ++ "@"
              | none => "") ++
            (if u.Host ≠ "" then escape u.Host .encodeHost else "")
        else ""
      let buf := s1 ++ auth
      let path := u.EscapedPath
      let buf := if path ≠ "" ∧ path.data.head? ≠ some '/' ∧ u.Host ≠ "" then buf ++ "/" else buf
      let buf :=
        if buf = "" ∧ ':' ∈ path.data.takeWhile (fun c => c ≠ '/') then buf ++ "./" else buf
      buf ++ path
  let s3 := if u.ForceQuery ∨ u.RawQuery ≠ "" then s2 ++ "?" ++ u.RawQuery else s2
  if u.Fragment ≠ "" then s3 ++ "#" ++ u.EscapedFragment else s3

/-! ## The file system -/

/-- What a path names. -/
inductive Entry
  /-- Nothing, in a directory where a file can be created. -/
  | absent
  /-- A regular file with its content. -/
  | file (data : String)
  /-- A directory, empty or not. -/
  | dir (empty : Bool)
  /-- Nothing that can be opened, created or removed: the directory that would
  hold the name is missing or closed to the process; `os.Stat` reports "does
  not exist" when `notExist` is set and another error otherwise. -/
  | blocked (notExist : Bool)
deriving DecidableEq, Repr

/-- Whether `os.Remove` followed by `os.Create` puts a fresh file at a name:
not on a directory that is not empty and not where nothing can be created. -/
def Entry.replaceable : Entry → Bool
  | .absent => true
  | .file _ => true
  | .dir empty => empty
  | .blocked _ => false

/-- The file system: what each path names.  Paths are compared as written,
relative ones being relative to the working directory of the process. -/
abbrev FS := String → Entry

/-- The file system with `p` naming `e`. -/
def FS.set (fs : FS) (p : String) (e : Entry) : FS :=
  fun q => if q = p then e else fs q

/-- Text of the error of a failed file operation. -/
def pathError (op p : String) (e : Entry) : String :=
  op ++ " " ++ p ++ ": " ++
    (match e with
      | .dir _ => "is a directory"
      | .blocked false => "permission denied"
      | _ => "no such file or directory")

/-- Go `os.Remove`, its error dropped as every call in `controller.go` drops
it: a file or an empty directory is removed, anything else is left. -/
def osRemove (fs : FS) (p : String) : FS :=
  match fs p with
  | .file _ => fs.set p .absent
  | .dir true => fs.set p .absent
  | _ => fs

/-- Go `os.Create` (and the opening step of `ioutil.WriteFile`): creates the
file or truncates it; fails on a directory and where nothing can be created. -/
def osCreate (fs : FS) (p : String) : Except String FS :=
  match fs p with
  | .absent => .ok (fs.set p (.file ""))
  | .file _ => .ok (fs.set p (.file ""))
  | e => .error (pathError "open" p e)

/-- Writing to the file opened at `p` (`out.WriteString`, `out.Write`): the
data goes after what the file holds. -/
def fileWrite (fs : FS) (p : String) (data : String) : FS :=
  match fs p with
  | .file old => fs.set p (.file (old ++ data))
  | _ => fs

/-- Go `ioutil.WriteFile`. -/
def ioutilWriteFile (fs : FS) (p : String) (data : String) : Except String FS :=
  match osCreate fs p with
  | .ok fs1 => .ok (fileWrite fs1 p data)
  | .error e => .error e

/-- Go `os.ReadFile`. -/
def osReadFile (fs : FS) (p : String) : Except String String :=
  match fs p with
  | .file data => .ok data
  | .dir e => .error (pathError "read" p (.dir e))
  | e => .error (pathError "open" p e)

/-- The three outcomes of `os.Stat` that `CreateTempConfig` tells apart. -/
inductive StatResult
  | ok
  | notExist
  | otherError
deriving DecidableEq, Repr

/-- Go `os.Stat`. -/
def osStat (fs : FS) (p : String) : StatResult :=
  match fs p with
  | .absent => .notExist
  | .file _ => .ok
  | .dir _ => .ok
  | .blocked true => .notExist
  | .blocked false => .otherError

/-! ## Data of `controller.go` -/

/-- The controller metadata, `NebulaConfig`. -/
structure NebulaConfig where
  CertEndpoint : String
  OidcClientID : String
  OidcConfigURL : String
  SignEndpoint : String
  NodeConfigEndpoint : String
  CACert : String
deriving DecidableEq, Repr

/-- The error document of the controller, `NebulaControllerError`. -/
structure NebulaControllerError where
  Status : String
  Message : String
deriving DecidableEq, Repr

/-- The content of `metadata.json`, `ConfigMetadata`. -/
structure ConfigMetadata where
  ControllerURL : String
  TunnelName : String
  Fingerprint : String
deriving DecidableEq, Repr

/-- The signing response, `SignResponse`; the Go map of static hosts is kept
as the list of its entries. -/
structure SignResponse where
  Certificate : String
  StaticHosts : List (String × List String)
  LightHouses : List String
  BlockList : List String
deriving DecidableEq, Repr

/-- The body of an enrollment request, `EnrollRequest`. -/
structure EnrollRequest where
  OTT : String
  PublicKey : String
deriving DecidableEq, Repr

/-- The body of a signing request, `SignRequest`. -/
structure SignRequest where
  PublicKey : String
  Duration : Int
  IP : String
deriving DecidableEq, Repr

/-- The `pki` block of the node configuration, `PKIConfig`. -/
structure PKIConfig where
  CA : String
  Cert : String
  Key : String
  BlockList : List String
deriving DecidableEq, Repr

/-- The `lighthouse` block of the node configuration, `LighthouseConfig`. -/
structure LighthouseConfig where
  AmLighthouse : Bool
  Hosts : List String
deriving DecidableEq, Repr

/-- The derived node configuration, `MinNodeConfig`. -/
structure MinNodeConfig where
  PKI : PKIConfig
  StaticHosts : List (String × List String)
  Lighthouse : LighthouseConfig
deriving DecidableEq, Repr

/-! ## The process and the libraries around it -/

/-- Body of an HTTP request: the value `json.Marshal` was given. -/
inductive Body
  | empty
  | sign (r : SignRequest)
  | enroll (r : EnrollRequest)
deriving DecidableEq, Repr

/-- An HTTP request as the code builds it. -/
structure HttpRequest where
  method : String
  url : String
  header : List (String × String)
  body : Body
deriving DecidableEq, Repr

/-- The part of an HTTP response the code reads. -/
structure HttpResponse where
  StatusCode : Nat
  Body : String
deriving DecidableEq, Repr

/-- A 32-byte curve25519 key. -/
abbrev Key := List UInt8

/-- The library calls that are not modelled further; a failing call gives the
text of its error. -/
structure Env where
  /-- Go `url.Parse`. -/
  urlParse : String → Except String URL
  /-- Go `(*http.Client).Do`: the round trip of a request. -/
  httpDo : HttpRequest → Except String HttpResponse
  /-- Go `json.NewDecoder(body).Decode` into a `NebulaConfig`. -/
  decodeNebulaConfig : String → Except String NebulaConfig
  /-- The same into a `SignResponse`. -/
  decodeSignResponse : String → Except String SignResponse
  /-- The same into a `NebulaControllerError`. -/
  decodeControllerError : String → Except String NebulaControllerError
  /-- Go `json.Unmarshal` into a `ConfigMetadata`. -/
  decodeConfigMetadata : String → Except String ConfigMetadata
  /-- Go `yaml.Marshal` of a `MinNodeConfig`. -/
  yamlMarshal : MinNodeConfig → String
  /-- Go `curve25519.ScalarBaseMult`. -/
  ScalarBaseMult : Key → Key
  /-- Go `cert.MarshalX25519PublicKey`. -/
  MarshalX25519PublicKey : Key → String
  /-- Go `cert.MarshalX25519PrivateKey`. -/
  MarshalX25519PrivateKey : Key → String

/-- State the process acts on: the file system and the requests handed to the
HTTP client so far, oldest first. -/
structure World where
  fs : FS
  sent : List HttpRequest

/-- How a call ends. -/
inductive Run (α : Type)
  /-- The function returns. -/
  | ret (a : α)
  /-- Go `log.Fatalf`: the message is logged and the process exits with status 1. -/
  | fatal (msg : String)
  /-- A run-time panic. -/
  | panic (msg : String)
deriving DecidableEq, Repr

/-- Text of the panic of a selector applied to a nil pointer. -/
def nilDereference : String :=
  "runtime error: invalid memory address or nil pointer dereference"

/-- Go `http.NewRequest`: fails when the URL does not parse. -/
def httpNewRequest (env : Env) (method url : String) (body : Body) :
    Except String HttpRequest :=
  match env.urlParse url with
  | .ok _ => .ok { method := method, url := url, header := [], body := body }
  | .error e => .error e

/-- Go `req.Header.Add`. -/
def HttpRequest.addHeader (req : HttpRequest) (k v : String) : HttpRequest :=
  { req with header := req.header ++ [(k, v)] }

/-! ## `controller.go` -/

/-- `createTempKey`; `random` is what `io.ReadFull(rand.Reader, ·)` delivers. -/
def createTempKey (env : Env) (random : Except String Key) (w : World) (configDir : String) :
    World × Run (String × String) :=
  match random with
  | .error e => (w, .panic e)
  | .ok privkey =>
    let pubkey := env.ScalarBaseMult privkey
    let pubKeyPath := pathJoin [configDir, "node.pub"]
    let fs1 := osRemove w.fs pubKeyPath
    match ioutilWriteFile fs1 pubKeyPath (env.MarshalX25519PublicKey pubkey) with
    | .error _ => ({ w with fs := fs1 }, .fatal "Could not save temp public key!")
    | .ok fs2 =>
      let privKeyPath := pathJoin [configDir, "node.key"]
      let fs3 := osRemove fs2 privKeyPath
      match ioutilWriteFile fs3 privKeyPath (env.MarshalX25519PrivateKey privkey) with
      | .error e => ({ w with fs := fs3 }, .fatal ("error while writing out-key: " ++ e))
      | .ok fs4 => ({ w with fs := fs4 }, .ret (pubKeyPath, privKeyPath))

/-- `signPublicKey`. -/
def signPublicKey (env : Env) (w : World) (nebulaConfig : NebulaConfig)
    (accessToken pubKeyFile : String) : World × Run (Except String SignResponse) :=
  match osReadFile w.fs pubKeyFile with
  | .error e => (w, .ret (.error e))
  | .ok pubKeyBytes =>
    let signReq : SignRequest := { PublicKey := pubKeyBytes, Duration := 0, IP := "" }
    match httpNewRequest env "POST" nebulaConfig.SignEndpoint (.sign signReq) with
    | .error e => (w, .ret (.error e))
    | .ok req0 =>
      let req := (req0.addHeader "Authorization" ("Bearer " ++ accessToken)).addHeader
        "Content-Type" "application/json"
      let w1 : World := { w with sent := w.sent ++ [req] }
      match env.httpDo req with
      | .error e => (w1, .ret (.error e))
      | .ok signResp =>
        if signResp.StatusCode ≠ 200 then (w1, .fatal signResp.Body)
        else
          match env.decodeSignResponse signResp.Body with
          | .error e => (w1, .ret (.error e))
          | .ok signResponse => (w1, .ret (.ok signResponse))

/-- The value `mnc` that `CreateTempConfig` builds (lines 174-186). -/
def minNodeConfig (signResponse : SignResponse) (configPath privKeyFile : String) :
    MinNodeConfig :=
  let certFilePath := filepathJoin [configPath, "node.crt"]
  let caFilePath := filepathJoin [configPath, "ca.crt"]
  { PKI :=
      { CA := filepathBase caFilePath
        Cert := filepathBase certFilePath
        Key := filepathBase privKeyFile
        BlockList := signResponse.BlockList }
    StaticHosts := signResponse.StaticHosts
    Lighthouse :=
      { AmLighthouse := false
        Hosts := signResponse.LightHouses } }

/-- The last part of `CreateTempConfig` (lines 198-221): when the
configuration directory has no `default.yml`, the `default.yml` of the working
directory is copied into it, if there is one. -/
def seedDefault (fs : FS) (configPath : String) : FS × Option String :=
  let defaultConfigPath := filepathJoin [configPath, "default.yml"]
  match osStat fs defaultConfigPath with
  | .ok => (fs, none)
  | .otherError => (fs, none)
  | .notExist =>
    match osStat fs "default.yml" with
    | .ok =>
      match osReadFile fs "default.yml" with
      | .error _ => (fs, some "Could not open default.yml!")
      | .ok defaultConfigBytes =>
        match osCreate fs defaultConfigPath with
        | .error _ => (fs, some "Could not copy default.yml!")
        | .ok fs1 => (fileWrite fs1 defaultConfigPath defaultConfigBytes, none)
    | _ => (fs, none)

/-- `CreateTempConfig`: the file system afterwards and the error returned
(`none` for `nil`). -/
def CreateTempConfig (env : Env) (fs : FS) (signResponse : SignResponse)
    (configPath privKeyFile caCert : String) : FS × Option String :=
  let certFilePath := filepathJoin [configPath, "node.crt"]
  let fs1 := osRemove fs certFilePath
  match osCreate fs1 certFilePath with
  | .error _ => (fs1, some "Could not create certificate file!")
  | .ok fs2 =>
    let fs3 := fileWrite fs2 certFilePath signResponse.Certificate
    let caFilePath := filepathJoin [configPath, "ca.crt"]
    let fs4 := osRemove fs3 caFilePath
    match osCreate fs4 caFilePath with
    | .error _ => (fs4, some "Could not create ca file!")
    | .ok fs5 =>
      let fs6 := fileWrite fs5 caFilePath caCert
      let mnc := minNodeConfig signResponse configPath privKeyFile
      let controllerSetConfigPath := filepathJoin [configPath, "zz_controller_config.yml"]
      let fs7 := osRemove fs6 controllerSetConfigPath
      match osCreate fs7 controllerSetConfigPath with
      | .error _ => (fs7, some "Could not create controller config set!")
      | .ok fs8 =>
        let fs9 := fileWrite fs8 controllerSetConfigPath (env.yamlMarshal mnc)
        seedDefault fs9 configPath

/-- The URL a request goes to: the base with `suffix` joined to its path
(`u.Path = path.Join(u.Path, suffix)`). -/
def endpoint (u : URL) (suffix : String) : URL :=
  { u with Path := pathJoin [u.Path, suffix] }

/-- `GetControllerInfo`.  The error of `url.Parse` is not looked at, so a URL
that does not parse leaves `u` nil and `u.Path` faults. -/
def GetControllerInfo (env : Env) (w : World) (urlStr : String) :
    World × Run (Except String NebulaConfig) :=
  match env.urlParse urlStr with
  | .error _ => (w, .panic nilDereference)
  | .ok u0 =>
    let u := endpoint u0 "config"
    match httpNewRequest env "GET" u.String .empty with
    | .error e => (w, .ret (.error e))
    | .ok req =>
      let w1 : World := { w with sent := w.sent ++ [req] }
      match env.httpDo req with
      | .error e => (w1, .ret (.error e))
      | .ok nebulaConfigResp =>
        match env.decodeNebulaConfig nebulaConfigResp.Body with
        | .error e => (w1, .ret (.error e))
        | .ok nebulaConfig => (w1, .ret (.ok nebulaConfig))

/-- `LoadTunnelMetadata`: `none` for a nil result. -/
def LoadTunnelMetadata (env : Env) (fs : FS) (configPath : String) : Option ConfigMetadata :=
  let metadataPath := filepathJoin [configPath, "metadata.json"]
  match osReadFile fs metadataPath with
  | .error _ => none
  | .ok metadataRaw =>
    match env.decodeConfigMetadata metadataRaw with
    | .error _ => none
    | .ok metaData => some metaData

/-- `EnrollOnServer`.  As in `GetControllerInfo` the error of `url.Parse` is
not looked at. -/
def EnrollOnServer (env : Env) (w : World) (serverURL ott pubKeyFile : String) :
    World × Run (Except String SignResponse) :=
  match osReadFile w.fs pubKeyFile with
  | .error e => (w, .ret (.error e))
  | .ok pubKeyPEM =>
    match env.urlParse serverURL with
    | .error _ => (w, .panic nilDereference)
    | .ok u0 =>
      let u := endpoint u0 "enroll"
      let enrollRequest : EnrollRequest := { OTT := ott, PublicKey := pubKeyPEM }
      match httpNewRequest env "POST" u.String (.enroll enrollRequest) with
      | .error e => (w, .ret (.error e))
      | .ok req0 =>
        let req := req0.addHeader "Content-Type" "application/json"
        let w1 : World := { w with sent := w.sent ++ [req] }
        match env.httpDo req with
        | .error e => (w1, .ret (.error e))
        | .ok enrollResp =>
          if enrollResp.StatusCode ≠ 200 then
            match env.decodeControllerError enrollResp.Body with
            | .error e => (w1, .ret (.error e))
            | .ok controllerError => (w1, .ret (.error controllerError.Message))
          else
            match env.decodeSignResponse enrollResp.Body with
            | .error e => (w1, .ret (.error e))
            | .ok signResponse => (w1, .ret (.ok signResponse))

/-- `ConfigureOIDCTunnel`: the error returned is `none` for `nil`. -/
def ConfigureOIDCTunnel (env : Env) (random : Except String Key) (w : World)
    (accessToken configPath : String) (nebulaConfig : NebulaConfig) :
    World × Run (Option String) :=
  match createTempKey env random w configPath with
  | (w1, .fatal m) => (w1, .fatal m)
  | (w1, .panic m) => (w1, .panic m)
  | (w1, .ret (pubKeyFile, privKeyFile)) =>
    match signPublicKey env w1 nebulaConfig accessToken pubKeyFile with
    | (w2, .fatal m) => (w2, .fatal m)
    | (w2, .panic m) => (w2, .panic m)
    | (w2, .ret (.error err)) =>
      (w2, .ret (some ("Bad sign response from controller: " ++ err)))
    | (w2, .ret (.ok signResponse)) =>
      let r := CreateTempConfig env w2.fs signResponse configPath privKeyFile nebulaConfig.CACert
      ({ w2 with fs := r.1 }, .ret r.2)

/-- `ConfigureEnrolledTunnel`. -/
def ConfigureEnrolledTunnel (env : Env) (random : Except String Key) (w : World)
    (serverURL ott configPath : String) (nebulaConfig : NebulaConfig) :
    World × Run (Option String) :=
  match createTempKey env random w configPath with
  | (w1, .fatal m) => (w1, .fatal m)
  | (w1, .panic m) => (w1, .panic m)
  | (w1, .ret (pubKeyFile, privKeyFile)) =>
    match EnrollOnServer env w1 serverURL ott pubKeyFile with
    | (w2, .fatal m) => (w2, .fatal m)
    | (w2, .panic m) => (w2, .panic m)
    | (w2, .ret (.error err)) =>
      (w2, .ret (some ("Bad response from controller: " ++ err)))
    | (w2, .ret (.ok signResponse)) =>
      let r := CreateTempConfig env w2.fs signResponse configPath privKeyFile nebulaConfig.CACert
      ({ w2 with fs := r.1 }, .ret r.2)

/-! ## `cmd/nebula-helper/nebula-helper.go`: where the files of a run are -/

/-- Go `os.Chdir`: the working directory after a successful change, for the
working directory `wd` before it. -/
def osChdir (wd dir : String) : String := Abs wd dir

/-- The files a run touches, as the functions of `controller.go` name them
for the directory argument `configPath`. -/
def artifactPaths (configPath : String) : List String :=
  [ filepathJoin [configPath, "metadata.json"],
    pathJoin [configPath, "node.pub"],
    pathJoin [configPath, "node.key"],
    filepathJoin [configPath, "node.crt"],
    filepathJoin [configPath, "ca.crt"],
    filepathJoin [configPath, "zz_controller_config.yml"] ]

/-- Where the files of a run of `main` are, for a process started in the
directory `start` with the flag `config_path`: both actions first call
`os.Chdir(*configPath)` and then hand `*configPath` to the functions of
`controller.go`, whose paths the operating system resolves against the new
working directory. -/
def mainArtifactLocations (start configPath : String) : List String :=
  (artifactPaths configPath).map (Abs (osChdir start configPath))

/-- The files with the same names directly in the directory `dir`. -/
def filesIn (dir : String) : List String :=
  ["metadata.json", "node.pub", "node.key", "node.crt", "ca.crt",
    "zz_controller_config.yml"].map (fun n => filepathJoin [dir, n])

/-- A plain path element: not empty, without a slash, and neither `.` nor `..`. -/
def IsElem (n : List Char) : Prop :=
  n ≠ [] ∧ '/' ∉ n ∧ n ≠ ['.'] ∧ n ≠ ['.', '.']

instance (n : List Char) : Decidable (IsElem n) := by
  unfold IsElem; infer_instance

/-- The file system once `CreateTempConfig` has written its three files. -/
def artifactsWritten (env : Env) (fs : FS) (signResponse : SignResponse)
    (configPath privKeyFile caCert : String) : FS :=
  ((fs.set (filepathJoin [configPath, "node.crt"]) (.file signResponse.Certificate)).set
    (filepathJoin [configPath, "ca.crt"]) (.file caCert)).set
    (filepathJoin [configPath, "zz_controller_config.yml"])
    (.file (env.yamlMarshal (minNodeConfig signResponse configPath privKeyFile)))

/-- The path of the certificate file of `CreateTempConfig`. -/
abbrev certFilePath (configPath : String) : String := filepathJoin [configPath, "node.crt"]

/-- The path of the CA certificate file of `CreateTempConfig`. -/
abbrev caFilePath (configPath : String) : String := filepathJoin [configPath, "ca.crt"]

/-- The path of the derived node configuration of `CreateTempConfig`. -/
abbrev controllerSetConfigPath (configPath : String) : String :=
  filepathJoin [configPath, "zz_controller_config.yml"]

/-- The path of the default configuration in the configuration directory. -/
abbrev defaultConfigPath (configPath : String) : String :=
  filepathJoin [configPath, "default.yml"]

/-- The path of the public key file of `createTempKey`. -/
abbrev pubKeyPath (configDir : String) : String := pathJoin [configDir, "node.pub"]

/-- The path of the private key file of `createTempKey`. -/
abbrev privKeyPath (configDir : String) : String := pathJoin [configDir, "node.key"]

/-- The request `signPublicKey` hands to the HTTP client, for the content
`pubKeyBytes` of the public key file. -/
def signHttpRequest (nebulaConfig : NebulaConfig) (accessToken pubKeyBytes : String) :
    HttpRequest :=
  { method := "POST"
    url := nebulaConfig.SignEndpoint
    header := [("Authorization", "Bearer " ++ accessToken), ("Content-Type", "application/json")]
    body := .sign { PublicKey := pubKeyBytes, Duration := 0, IP := "" } }

/-- The request `EnrollOnServer` hands to the HTTP client, for the parsed
server URL `u0` and the content `pubKeyPEM` of the public key file. -/
def enrollHttpRequest (u0 : URL) (ott pubKeyPEM : String) : HttpRequest :=
  { method := "POST"
    url := (endpoint u0 "enroll").String
    header := [("Content-Type", "application/json")]
    body := .enroll { OTT := ott, PublicKey := pubKeyPEM } }

/-- The file system once `createTempKey` has written the pair of the private
key `privkey`. -/
def keysWritten (env : Env) (privkey : Key) (fs : FS) (configDir : String) : FS :=
  (fs.set (pubKeyPath configDir)
      (.file (env.MarshalX25519PublicKey (env.ScalarBaseMult privkey)))).set
    (privKeyPath configDir) (.file (env.MarshalX25519PrivateKey privkey))

/-- The state once the keys of `privkey` are written and the request `req`
is handed to the HTTP client. -/
def afterRequest (env : Env) (privkey : Key) (w : World) (configDir : String)
    (req : HttpRequest) : World :=
  { fs := keysWritten env privkey w.fs configDir, sent := w.sent ++ [req] }

/-! ## A sample environment -/

/-- The base URL `https://ctrl.example.com/api`, parsed. -/
def demoBase : URL :=
  { Scheme := "https", Opaque := "", User := none, Host := "ctrl.example.com",
    Path := "/api", RawPath := "", OmitHost := false, ForceQuery := false,
    RawQuery := "", Fragment := "", RawFragment := "" }

/-- The value of `url.Parse` at the URLs of the examples; `:` has no scheme
before its colon and is rejected, and so is, here, every other string. -/
def demoParse (s : String) : Except String URL :=
  if s = "https://ctrl.example.com/api" then .ok demoBase
  else if s = "https://ctrl.example.com/api/config" then
    .ok { demoBase with Path := "/api/config" }
  else if s = "https://ctrl.example.com/api/enroll" then
    .ok { demoBase with Path := "/api/enroll" }
  else if s = "https://ctrl.example.com/sign" then .ok { demoBase with Path := "/sign" }
  else .error "missing protocol scheme"

/-- The signing response of the scenario of the specification. -/
def demoResponse : SignResponse :=
  { Certificate := "CERT-PEM", StaticHosts := [("lh1", ["1.2.3.4:4242"])],
    LightHouses := ["lh1"], BlockList := [] }

/-- The controller metadata of the scenario. -/
def demoConfig : NebulaConfig :=
  { CertEndpoint := "", OidcClientID := "abc", OidcConfigURL := "https://idp/openid",
    SignEndpoint := "https://ctrl.example.com/sign", NodeConfigEndpoint := "",
    CACert := "CA-PEM" }

/-- A controller that signs for the bearer token `T` and enrolls for the
one-time token `OTT`, and answers 401 and 403 otherwise. -/
def demoDo (req : HttpRequest) : Except String HttpResponse :=
  if req.url = "https://ctrl.example.com/sign" then
    if ("Authorization", "Bearer T") ∈ req.header then .ok ⟨200, "SIGNED"⟩
    else .ok ⟨401, "bad token"⟩
  else if req.url = "https://ctrl.example.com/api/enroll" then
    match req.body with
    | .enroll r => if r.OTT = "OTT" then .ok ⟨200, "SIGNED"⟩ else .ok ⟨403, "DENIED"⟩
    | _ => .ok ⟨400, "bad request"⟩
  else if req.url = "https://ctrl.example.com/api/config" then .ok ⟨200, "CONFIG"⟩
  else .error "no such host"

/-- A sample environment: the controller above, bodies decoded by name, and
simple stand-ins for the YAML and key coders. -/
def demoEnv : Env :=
  { urlParse := demoParse
    httpDo := demoDo
    decodeNebulaConfig := fun b =>
      if b = "CONFIG" then .ok demoConfig else .error "invalid character"
    decodeSignResponse := fun b =>
      if b = "SIGNED" then .ok demoResponse else .error "invalid character"
    decodeControllerError := fun b =>
      if b = "DENIED" then .ok ⟨"error", "token expired"⟩ else .error "invalid character"
    decodeConfigMetadata := fun _ => .error "invalid character"
    yamlMarshal := fun c =>
      "pki: " ++ c.PKI.CA ++ " " ++ c.PKI.Cert ++ " " ++ c.PKI.Key ++
        " lighthouse: " ++ String.intercalate "," c.Lighthouse.Hosts
    ScalarBaseMult := fun k => k.reverse
    MarshalX25519PublicKey := fun k => "PUB" ++ String.mk (k.map (fun b => Char.ofNat b.toNat))
    MarshalX25519PrivateKey := fun k => "KEY" ++ String.mk (k.map (fun b => Char.ofNat b.toNat)) }

/-- A configuration directory `conf` in which `ca.crt` is a directory that is
not empty. -/
def caDirFS : FS := fun p => if p = "conf/ca.crt" then .dir false else .absent

/-- A working directory in which `default.yml` is a directory. -/
def templateDirFS : FS := fun p => if p = "default.yml" then .dir false else .absent

/-- A working directory with a template `default.yml`. -/
def templateFS : FS := fun p => if p = "default.yml" then .file "TEMPLATE" else .absent

/-- A working directory with a template, and a configuration directory `conf`
in which `node.crt` is a directory that is not empty. -/
def certDirFS : FS := fun p =>
  if p = "default.yml" then .file "TEMPLATE"
  else if p = "conf/node.crt" then .dir false
  else .absent

/-- A configuration directory `conf` that holds a public key file. -/
def keyedFS : FS := fun p => if p = "conf/node.pub" then .file "PUB" else .absent

/-- A configuration directory `conf` with the certificate of an earlier run. -/
def oldCertFS : FS := fun p => if p = "conf/node.crt" then .file "OLD-CERT" else .absent

/-- A base URL with a path that is not clean, `https://ctrl.example.com/v1/../api`. -/
def dotdotBase : URL := { demoBase with Path := "/v1/../api" }

/-- The base URL `http:`, parsed: a scheme and nothing else. -/
def schemeOnlyBase : URL :=
  { Scheme := "http", Opaque := "", User := none, Host := "", Path := "", RawPath := "",
    OmitHost := false, ForceQuery := false, RawQuery := "", Fragment := "", RawFragment := "" }

/-- A configuration directory `conf` as an earlier, successful run left it. -/
def provisionedFS : FS := fun p =>
  if p = "conf/node.pub" then .file "OLD-PUB"
  else if p = "conf/node.key" then .file "OLD-KEY"
  else if p = "conf/node.crt" then .file "OLD-CERT"
  else if p = "conf/ca.crt" then .file "CA-PEM"
  else if p = "conf/zz_controller_config.yml" then .file "OLD-CONFIG"
  else .absent

/-- The provisioned directory `conf`, with `default.yml` of the working
directory a directory. -/
def provisionedTemplateDirFS : FS := fun p =>
  if p = "default.yml" then .dir false else provisionedFS p

/-- A file system with nothing in it. -/
def emptyFS : FS := fun _ => .absent

/-- A private key for the examples. -/
def demoKey : Key := List.replicate 32 65

/-! ## Facts about the path functions -/

/-- The path functions on the cases of the tables of the Go documentation. -/
theorem path_function_values :
    Clean "a/../../b/./c//d/" = "../b/c/d" ∧
    Clean "/../a/b/../c" = "/a/c" ∧
    Clean "" = "." ∧
    Clean "abc/def/../../.." = ".." ∧
    pathJoin ["", "config"] = "config" ∧
    pathJoin ["/api/", "config"] = "/api/config" ∧
    pathJoin ["a", "", "b"] = "a/b" ∧
    filepathBase "conf/node.key" = "node.key" ∧
    filepathBase "///" = "/" ∧
    filepathBase "" = "." ∧
    Abs "/home/u" "conf" = "/home/u/conf" := by
  refine ⟨by decide, by decide, by decide, by decide, by decide, by decide, by decide,
    by decide, by decide, by decide, by decide⟩


theorem splitSlash_ne_nil (p : List Char) : splitSlash p ≠ [] := by
  cases p with
  | nil => simp [splitSlash]
  | cons c cs =>
    simp only [splitSlash]
    split
    · simp
    · split <;> simp

theorem splitSlash_append_slash (a b : List Char) :
    splitSlash (a ++ '/' :: b) = splitSlash a ++ splitSlash b := by
  induction a with
  | nil => simp [splitSlash]
  | cons c cs ih =>
    by_cases hc : c = '/'
    · simp [splitSlash, hc, ih]
    · cases h : splitSlash cs with
      | nil => exact absurd h (splitSlash_ne_nil cs)
      | cons x xs => simp [splitSlash, hc, ih, h]

theorem splitSlash_of_not_mem (n : List Char) (h : '/' ∉ n) : splitSlash n = [n] := by
  induction n with
  | nil => rfl
  | cons c cs ih =>
    have hc : c ≠ '/' := fun e => h (by simp [e])
    have hcs : '/' ∉ cs := fun e => h (by simp [e])
    simp [splitSlash, hc, ih hcs]

theorem joinSlash_append_singleton (xs : List (List Char)) (n : List Char) :
    joinSlash (xs ++ [n]) = if xs = [] then n else joinSlash xs ++ '/' :: n := by
  induction xs with
  | nil => simp [joinSlash]
  | cons x r ih =>
    cases r with
    | nil => simp [joinSlash]
    | cons y r =>
      have ih2 : joinSlash (y :: (r ++ [n])) = joinSlash (y :: r) ++ '/' :: n := by
        simpa using ih
      simp [joinSlash, ih2]

theorem cleanStep_elem (rooted : Bool) (out : List (List Char)) (n : List Char)
    (hn : IsElem n) : cleanStep rooted out n = n :: out := by
  obtain ⟨h1, _, h3, h4⟩ := hn
  simp [cleanStep, h1, h3, h4]

theorem cleanStep_nil (rooted : Bool) (out : List (List Char)) :
    cleanStep rooted out [] = out := by
  simp [cleanStep]

theorem head?_append_of_ne_nil (a b : List Char) (ha : a ≠ []) :
    (a ++ b).head? = a.head? := by
  cases a with
  | nil => exact absurd rfl ha
  | cons c cs => rfl

/-- Cleaning `a/n` for a plain element `n`: the output for `a` with `n`
appended. -/
theorem cleanL_append_elem (a n : List Char) (ha : a ≠ []) (hn : IsElem n) :
    cleanL (a ++ '/' :: n) =
      (if a.head? = some '/' then
        '/' :: joinSlash (((splitSlash a).foldl (cleanStep true) []).reverse ++ [n])
      else joinSlash (((splitSlash a).foldl (cleanStep false) []).reverse ++ [n])) := by
  unfold cleanL
  simp only [head?_append_of_ne_nil a _ ha, splitSlash_append_slash,
    splitSlash_of_not_mem n hn.2.1, List.foldl_append, List.foldl_cons, List.foldl_nil,
    cleanStep_elem _ _ n hn, List.reverse_cons]
  by_cases hr : a.head? = some '/' <;> simp [hr]

theorem cleanL_elem (n : List Char) (hn : IsElem n) : cleanL n = n := by
  have hh : n.head? ≠ some '/' := by
    intro h
    cases n with
    | nil => simp at h
    | cons c cs => simp at h; exact hn.2.1 (by simp [h])
  unfold cleanL
  simp [hh, splitSlash_of_not_mem n hn.2.1, cleanStep_elem _ _ n hn, joinSlash]

/-- The last element of a path that ends in a plain element after a slash (or
consists of it). -/
theorem baseL_append_elem (pre n : List Char) (hn : IsElem n)
    (hpre : pre = [] ∨ ∃ q, pre = q ++ ['/']) : baseL (pre ++ n) = n := by
  obtain ⟨h1, h2, -, -⟩ := hn
  have hne : pre ++ n ≠ [] := by simp [h1]
  have hdrop : (n.reverse ++ pre.reverse).dropWhile (fun c => decide (c = '/'))
      = n.reverse ++ pre.reverse := by
    cases hr : n.reverse with
    | nil => simp at hr; exact absurd hr h1
    | cons c cs =>
      have hc : c ∈ n := by
        have : c ∈ n.reverse := by simp [hr]
        simpa using this
      have : c ≠ '/' := fun e => h2 (e ▸ hc)
      simp [List.dropWhile, this]
  have htake : (n.reverse ++ pre.reverse).takeWhile (fun c => decide (c ≠ '/'))
      = n.reverse := by
    have hall : ∀ c ∈ n.reverse, (fun c => decide (c ≠ '/')) c = true := by
      intro c hc
      have hc2 : c ∈ n := by simpa using hc
      have : c ≠ '/' := fun e => h2 (e ▸ hc2)
      simp [this]
    rw [List.takeWhile_append_of_pos hall]
    rcases hpre with rfl | ⟨q, rfl⟩
    · simp
    · simp [List.takeWhile]
  unfold baseL
  simp only [hne, if_false, List.reverse_append, hdrop, htake, List.reverse_reverse, h1]

theorem baseL_cleanL_append_elem (a n : List Char) (ha : a ≠ []) (hn : IsElem n) :
    baseL (cleanL (a ++ '/' :: n)) = n := by
  rw [cleanL_append_elem a n ha hn]
  split
  · rw [joinSlash_append_singleton]
    split
    · exact baseL_append_elem ['/'] n hn (Or.inr ⟨[], rfl⟩)
    · have := baseL_append_elem
        ('/' :: joinSlash ((splitSlash a).foldl (cleanStep true) []).reverse ++ ['/']) n hn
        (Or.inr ⟨_, rfl⟩)
      simpa using this
  · rw [joinSlash_append_singleton]
    split
    · exact baseL_append_elem [] n hn (Or.inl rfl)
    · have := baseL_append_elem
        (joinSlash ((splitSlash a).foldl (cleanStep false) []).reverse ++ ['/']) n hn
        (Or.inr ⟨_, rfl⟩)
      simpa using this

theorem pathJoin_pair (d name : String) (hname : name ≠ "") :
    pathJoin [d, name] =
      if d = "" then ⟨cleanL name.data⟩ else ⟨cleanL (d.data ++ '/' :: name.data)⟩ := by
  by_cases hd : d = ""
  · simp [pathJoin, hd, List.dropWhile, hname, joinSlash]
  · simp [pathJoin, hd, List.dropWhile, joinSlash]

theorem data_ne_nil_of_ne_empty (s : String) (h : s ≠ "") : s.data ≠ [] := by
  intro e
  apply h
  cases s
  simp_all

theorem ne_empty_of_isElem (name : String) (h : IsElem name.data) : name ≠ "" := by
  intro e
  subst e
  exact h.1 rfl

/-- The base name of `Join(d, name)` is `name`, for every directory `d` and
every plain file name. -/
theorem filepathBase_join (d name : String) (hname : IsElem name.data) :
    filepathBase (filepathJoin [d, name]) = name := by
  unfold filepathBase filepathJoin
  rw [pathJoin_pair d name (ne_empty_of_isElem name hname)]
  by_cases hd : d = ""
  · simp only [hd, if_true]
    rw [cleanL_elem _ hname]
    have := baseL_append_elem [] name.data hname (Or.inl rfl)
    simp only [List.nil_append] at this
    rw [this]
  · simp only [hd, if_false]
    rw [baseL_cleanL_append_elem _ _ (data_ne_nil_of_ne_empty d hd) hname]

/-- Two different plain file names never give the same joined path. -/
theorem filepathJoin_ne (d a b : String) (ha : IsElem a.data) (hb : IsElem b.data)
    (hab : a ≠ b) : filepathJoin [d, a] ≠ filepathJoin [d, b] := by
  intro h
  apply hab
  rw [← filepathBase_join d a ha, ← filepathBase_join d b hb, h]

/-! ## Facts about the file system -/

theorem FS.set_same (fs : FS) (p : String) (e : Entry) : (fs.set p e) p = e := by
  simp [FS.set]

theorem FS.set_other (fs : FS) (p q : String) (e : Entry) (h : q ≠ p) :
    (fs.set p e) q = fs q := by
  simp [FS.set, h]

theorem FS.set_set (fs : FS) (p : String) (e1 e2 : Entry) :
    (fs.set p e1).set p e2 = fs.set p e2 := by
  funext q
  by_cases h : q = p <;> simp [FS.set, h]

/-- Removing and creating puts an empty file at a replaceable name. -/
theorem replace_ok (fs : FS) (p : String) (h : (fs p).replaceable = true) :
    osCreate (osRemove fs p) p = .ok (fs.set p (.file "")) := by
  cases hp : fs p with
  | absent => simp [osRemove, osCreate, hp]
  | file d => simp [osRemove, osCreate, hp, FS.set_same, FS.set_set]
  | dir e =>
    have he : e = true := by simpa [hp, Entry.replaceable] using h
    subst he
    simp [osRemove, osCreate, hp, FS.set_same, FS.set_set]
  | blocked b => simp [hp, Entry.replaceable] at h

/-- Where removing and creating fails, nothing changes. -/
theorem replace_err (fs : FS) (p : String) (h : (fs p).replaceable = false) :
    osRemove fs p = fs ∧ osCreate fs p = .error (pathError "open" p (fs p)) := by
  cases hp : fs p with
  | absent => simp [hp, Entry.replaceable] at h
  | file d => simp [hp, Entry.replaceable] at h
  | dir e =>
    have he : e = false := by simpa [hp, Entry.replaceable] using h
    subst he
    simp [osRemove, osCreate, hp]
  | blocked b => simp [osRemove, osCreate, hp]

theorem fileWrite_fresh (fs : FS) (p data : String) :
    fileWrite (fs.set p (.file "")) p data = fs.set p (.file data) := by
  simp [fileWrite, FS.set_same, FS.set_set]

/-! ## `CreateTempConfig` -/

theorem isElem_node_crt : IsElem "node.crt".data := by decide
theorem isElem_ca_crt : IsElem "ca.crt".data := by decide
theorem isElem_zz : IsElem "zz_controller_config.yml".data := by decide
theorem isElem_default : IsElem "default.yml".data := by decide
theorem isElem_node_pub : IsElem "node.pub".data := by decide
theorem isElem_node_key : IsElem "node.key".data := by decide

/-- A joined path is not the bare name `default.yml`, unless it was joined
from that name. -/
theorem filepathJoin_ne_default (d a : String) (ha : IsElem a.data) (h : a ≠ "default.yml") :
    filepathJoin [d, a] ≠ "default.yml" := by
  intro e
  apply h
  have hb := filepathBase_join d a ha
  rw [e] at hb
  rw [← hb]
  decide

/-- The run of `CreateTempConfig` by the first name that cannot be replaced. -/
theorem CreateTempConfig_eq (env : Env) (fs : FS) (r : SignResponse) (cp pk ca : String) :
    CreateTempConfig env fs r cp pk ca =
      if (fs (filepathJoin [cp, "node.crt"])).replaceable = false then
        (fs, some "Could not create certificate file!")
      else if (fs (filepathJoin [cp, "ca.crt"])).replaceable = false then
        (fs.set (filepathJoin [cp, "node.crt"]) (.file r.Certificate),
          some "Could not create ca file!")
      else if (fs (filepathJoin [cp, "zz_controller_config.yml"])).replaceable = false then
        ((fs.set (filepathJoin [cp, "node.crt"]) (.file r.Certificate)).set
          (filepathJoin [cp, "ca.crt"]) (.file ca),
          some "Could not create controller config set!")
      else seedDefault (artifactsWritten env fs r cp pk ca) cp := by
  have hac : filepathJoin [cp, "ca.crt"] ≠ filepathJoin [cp, "node.crt"] :=
    filepathJoin_ne cp _ _ isElem_ca_crt isElem_node_crt (by decide)
  have hzc : filepathJoin [cp, "zz_controller_config.yml"] ≠ filepathJoin [cp, "node.crt"] :=
    filepathJoin_ne cp _ _ isElem_zz isElem_node_crt (by decide)
  have hza : filepathJoin [cp, "zz_controller_config.yml"] ≠ filepathJoin [cp, "ca.crt"] :=
    filepathJoin_ne cp _ _ isElem_zz isElem_ca_crt (by decide)
  unfold CreateTempConfig
  by_cases h1 : (fs (filepathJoin [cp, "node.crt"])).replaceable = false
  · obtain ⟨e1, e2⟩ := replace_err fs _ h1
    simp only [e1, e2, h1, if_true]
  · have h1t : (fs (filepathJoin [cp, "node.crt"])).replaceable = true := by simpa using h1
    simp only [replace_ok fs _ h1t, fileWrite_fresh, h1, if_false]
    by_cases h2 : (fs (filepathJoin [cp, "ca.crt"])).replaceable = false
    · have h2x : ((fs.set (filepathJoin [cp, "node.crt"]) (.file r.Certificate))
          (filepathJoin [cp, "ca.crt"])).replaceable = false := by
        rw [FS.set_other _ _ _ _ hac]; exact h2
      obtain ⟨e1, e2⟩ := replace_err _ _ h2x
      simp [e1, e2, h2]
    · have h2t : ((fs.set (filepathJoin [cp, "node.crt"]) (.file r.Certificate))
          (filepathJoin [cp, "ca.crt"])).replaceable = true := by
        rw [FS.set_other _ _ _ _ hac]; simpa using h2
      simp only [replace_ok _ _ h2t, fileWrite_fresh, h2, if_false]
      by_cases h3 : (fs (filepathJoin [cp, "zz_controller_config.yml"])).replaceable = false
      · have h3x : (((fs.set (filepathJoin [cp, "node.crt"]) (.file r.Certificate)).set
            (filepathJoin [cp, "ca.crt"]) (.file ca))
            (filepathJoin [cp, "zz_controller_config.yml"])).replaceable = false := by
          rw [FS.set_other _ _ _ _ hza, FS.set_other _ _ _ _ hzc]; exact h3
        obtain ⟨e1, e2⟩ := replace_err _ _ h3x
        simp [e1, e2, h3]
      · have h3t : (((fs.set (filepathJoin [cp, "node.crt"]) (.file r.Certificate)).set
            (filepathJoin [cp, "ca.crt"]) (.file ca))
            (filepathJoin [cp, "zz_controller_config.yml"])).replaceable = true := by
          rw [FS.set_other _ _ _ _ hza, FS.set_other _ _ _ _ hzc]; simpa using h3
        simp [replace_ok _ _ h3t, fileWrite_fresh, h3, artifactsWritten]

/-- What the three files hold once they are written. -/
theorem artifactsWritten_files (env : Env) (fs : FS) (r : SignResponse) (cp pk ca : String) :
    artifactsWritten env fs r cp pk ca (filepathJoin [cp, "node.crt"]) = .file r.Certificate ∧
    artifactsWritten env fs r cp pk ca (filepathJoin [cp, "ca.crt"]) = .file ca ∧
    artifactsWritten env fs r cp pk ca (filepathJoin [cp, "zz_controller_config.yml"]) =
      .file (env.yamlMarshal (minNodeConfig r cp pk)) := by
  have hac : filepathJoin [cp, "ca.crt"] ≠ filepathJoin [cp, "node.crt"] :=
    filepathJoin_ne cp _ _ isElem_ca_crt isElem_node_crt (by decide)
  have hzc : filepathJoin [cp, "zz_controller_config.yml"] ≠ filepathJoin [cp, "node.crt"] :=
    filepathJoin_ne cp _ _ isElem_zz isElem_node_crt (by decide)
  have hza : filepathJoin [cp, "zz_controller_config.yml"] ≠ filepathJoin [cp, "ca.crt"] :=
    filepathJoin_ne cp _ _ isElem_zz isElem_ca_crt (by decide)
  refine ⟨?_, ?_, ?_⟩
  · simp [artifactsWritten, FS.set, hac.symm, hzc.symm]
  · simp [artifactsWritten, FS.set, hza.symm]
  · simp [artifactsWritten, FS.set]

/-- The three writes touch no other name. -/
theorem artifactsWritten_other (env : Env) (fs : FS) (r : SignResponse) (cp pk ca q : String)
    (h1 : q ≠ filepathJoin [cp, "node.crt"]) (h2 : q ≠ filepathJoin [cp, "ca.crt"])
    (h3 : q ≠ filepathJoin [cp, "zz_controller_config.yml"]) :
    artifactsWritten env fs r cp pk ca q = fs q := by
  simp [artifactsWritten, FS.set, h1, h2, h3]

/-- The seeding step writes at most the `default.yml` of the configuration
directory. -/
theorem seedDefault_other (fs : FS) (cp q : String) (h : q ≠ filepathJoin [cp, "default.yml"]) :
    (seedDefault fs cp).1 q = fs q := by
  cases hd : fs (filepathJoin [cp, "default.yml"]) with
  | absent =>
    rcases ht : fs "default.yml" with _ | t | e | (_ | _) <;>
      simp [seedDefault, osStat, osReadFile, osCreate, hd, ht, fileWrite_fresh,
        FS.set_other _ _ _ _ h]
  | file d => simp [seedDefault, osStat, hd]
  | dir e => simp [seedDefault, osStat, hd]
  | blocked b =>
    cases b <;> rcases ht : fs "default.yml" with _ | t | e | (_ | _) <;>
      simp [seedDefault, osStat, osReadFile, osCreate, hd, ht]

/-- The seeding step leaves an existing `default.yml` alone. -/
theorem seedDefault_present (fs : FS) (cp d : String)
    (h : fs (filepathJoin [cp, "default.yml"]) = .file d) : seedDefault fs cp = (fs, none) := by
  simp [seedDefault, osStat, h]

/-- The seeding step copies a readable template into a directory without one. -/
theorem seedDefault_copies (fs : FS) (cp t : String)
    (h : fs (filepathJoin [cp, "default.yml"]) = .absent) (ht : fs "default.yml" = .file t) :
    seedDefault fs cp = (fs.set (filepathJoin [cp, "default.yml"]) (.file t), none) := by
  simp [seedDefault, osStat, h, ht, osReadFile, osCreate, fileWrite_fresh]

/-- The seeding step returns the error of the template when the
configuration directory has no `default.yml` and the template is a directory. -/
theorem seedDefault_unreadable (fs : FS) (cp : String) (e : Bool)
    (h : fs (filepathJoin [cp, "default.yml"]) = .absent) (ht : fs "default.yml" = .dir e) :
    (seedDefault fs cp).2 = some "Could not open default.yml!" := by
  simp [seedDefault, osStat, h, ht, osReadFile]

/-- The seeding step fails only on a template that is there and cannot be
read, or on a copy that cannot be created. -/
theorem seedDefault_error (fs : FS) (cp : String) (h : (seedDefault fs cp).2 ≠ none) :
    ((seedDefault fs cp).2 = some "Could not open default.yml!" ∧
        (∃ e, fs "default.yml" = .dir e) ∧
        (fs (filepathJoin [cp, "default.yml"]) = .absent ∨
          fs (filepathJoin [cp, "default.yml"]) = .blocked true)) ∨
      ((seedDefault fs cp).2 = some "Could not copy default.yml!" ∧
        fs (filepathJoin [cp, "default.yml"]) = .blocked true) := by
  revert h
  cases hd : fs (filepathJoin [cp, "default.yml"]) with
  | absent =>
    rcases ht : fs "default.yml" with _ | t | e | (_ | _) <;>
      simp [seedDefault, osStat, osReadFile, osCreate, hd, ht]
  | file d => simp [seedDefault, osStat, hd]
  | dir e => simp [seedDefault, osStat, hd]
  | blocked b =>
    cases b <;> rcases ht : fs "default.yml" with _ | t | e | (_ | _) <;>
      simp [seedDefault, osStat, osReadFile, osCreate, hd, ht]

/-- When none of the three creations fails, the three files are written and
the seeding step runs. -/
theorem CreateTempConfig_of_created (env : Env) (fs : FS) (r : SignResponse) (cp pk ca : String)
    (h1 : (CreateTempConfig env fs r cp pk ca).2 ≠ some "Could not create certificate file!")
    (h2 : (CreateTempConfig env fs r cp pk ca).2 ≠ some "Could not create ca file!")
    (h3 : (CreateTempConfig env fs r cp pk ca).2 ≠
      some "Could not create controller config set!") :
    CreateTempConfig env fs r cp pk ca = seedDefault (artifactsWritten env fs r cp pk ca) cp := by
  rw [CreateTempConfig_eq] at h1 h2 h3 ⊢
  by_cases c1 : (fs (filepathJoin [cp, "node.crt"])).replaceable = false
  · simp [c1] at h1
  · by_cases c2 : (fs (filepathJoin [cp, "ca.crt"])).replaceable = false
    · simp [c1, c2] at h2
    · by_cases c3 : (fs (filepathJoin [cp, "zz_controller_config.yml"])).replaceable = false
      · simp [c1, c2, c3] at h3
      · simp [c1, c2, c3]

/-- With the three names replaceable the three files are written and the
seeding step runs. -/
theorem CreateTempConfig_of_replaceable (env : Env) (fs : FS) (r : SignResponse)
    (cp pk ca : String)
    (c1 : (fs (certFilePath cp)).replaceable = true)
    (c2 : (fs (caFilePath cp)).replaceable = true)
    (c3 : (fs (controllerSetConfigPath cp)).replaceable = true) :
    CreateTempConfig env fs r cp pk ca = seedDefault (artifactsWritten env fs r cp pk ca) cp := by
  rw [CreateTempConfig_eq]
  simp only [certFilePath, caFilePath, controllerSetConfigPath] at c1 c2 c3
  simp [c1, c2, c3]

theorem default_ne_artifacts (cp : String) :
    defaultConfigPath cp ≠ certFilePath cp ∧ defaultConfigPath cp ≠ caFilePath cp ∧
      defaultConfigPath cp ≠ controllerSetConfigPath cp :=
  ⟨filepathJoin_ne cp _ _ isElem_default isElem_node_crt (by decide),
    filepathJoin_ne cp _ _ isElem_default isElem_ca_crt (by decide),
    filepathJoin_ne cp _ _ isElem_default isElem_zz (by decide)⟩

theorem template_ne_artifacts (cp : String) :
    "default.yml" ≠ certFilePath cp ∧ "default.yml" ≠ caFilePath cp ∧
      "default.yml" ≠ controllerSetConfigPath cp :=
  ⟨(filepathJoin_ne_default cp _ isElem_node_crt (by decide)).symm,
    (filepathJoin_ne_default cp _ isElem_ca_crt (by decide)).symm,
    (filepathJoin_ne_default cp _ isElem_zz (by decide)).symm⟩

/-- After the three creations the three files hold the certificate, the CA
certificate and the serialised configuration, whatever the seeding step does. -/
theorem seeded_files (env : Env) (fs : FS) (r : SignResponse) (cp pk ca : String) :
    (seedDefault (artifactsWritten env fs r cp pk ca) cp).1 (certFilePath cp) =
        .file r.Certificate ∧
    (seedDefault (artifactsWritten env fs r cp pk ca) cp).1 (caFilePath cp) = .file ca ∧
    (seedDefault (artifactsWritten env fs r cp pk ca) cp).1 (controllerSetConfigPath cp) =
        .file (env.yamlMarshal (minNodeConfig r cp pk)) := by
  obtain ⟨d1, d2, d3⟩ := default_ne_artifacts cp
  obtain ⟨f1, f2, f3⟩ := artifactsWritten_files env fs r cp pk ca
  refine ⟨?_, ?_, ?_⟩
  · rw [seedDefault_other _ _ _ d1.symm]; exact f1
  · rw [seedDefault_other _ _ _ d2.symm]; exact f2
  · rw [seedDefault_other _ _ _ d3.symm]; exact f3

/-- The value `mnc`, field by field. -/
theorem minNodeConfig_eq (r : SignResponse) (cp pk : String) :
    minNodeConfig r cp pk =
      { PKI :=
          { CA := "ca.crt", Cert := "node.crt", Key := filepathBase pk,
            BlockList := r.BlockList }
        StaticHosts := r.StaticHosts
        Lighthouse := { AmLighthouse := false, Hosts := r.LightHouses } } := by
  simp [minNodeConfig, filepathBase_join _ _ isElem_ca_crt, filepathBase_join _ _ isElem_node_crt]

/-- `CreateTempConfig` touches no name but its three files and the
`default.yml` of the configuration directory. -/
theorem CreateTempConfig_frame (env : Env) (fs : FS) (r : SignResponse) (cp pk ca q : String)
    (h1 : q ≠ certFilePath cp) (h2 : q ≠ caFilePath cp) (h3 : q ≠ controllerSetConfigPath cp)
    (h4 : q ≠ defaultConfigPath cp) : (CreateTempConfig env fs r cp pk ca).1 q = fs q := by
  simp only [certFilePath, caFilePath, controllerSetConfigPath, defaultConfigPath] at h1 h2 h3 h4
  rw [CreateTempConfig_eq]
  split
  · rfl
  · split
    · simp [FS.set, h1]
    · split
      · simp [FS.set, h1, h2]
      · rw [seedDefault_other _ _ _ h4, artifactsWritten_other _ _ _ _ _ _ _ h1 h2 h3]

/-- `CreateTempConfig` leaves a `default.yml` that the configuration directory
already has as it is. -/
theorem CreateTempConfig_default_kept (env : Env) (fs : FS) (r : SignResponse)
    (cp pk ca d : String) (h : fs (defaultConfigPath cp) = .file d) :
    (CreateTempConfig env fs r cp pk ca).1 (defaultConfigPath cp) = .file d := by
  obtain ⟨d1, d2, d3⟩ := default_ne_artifacts cp
  simp only [certFilePath, caFilePath, controllerSetConfigPath, defaultConfigPath] at d1 d2 d3 h ⊢
  rw [CreateTempConfig_eq]
  split
  · exact h
  · split
    · simp [FS.set, d1, h]
    · split
      · simp [FS.set, d1, d2, h]
      · have hF : artifactsWritten env fs r cp pk ca (filepathJoin [cp, "default.yml"]) =
            .file d := by
          rw [artifactsWritten_other _ _ _ _ _ _ _ d1 d2 d3]; exact h
        rw [seedDefault_present _ _ _ hF]; exact hF

/-! ## The claims about `CreateTempConfig` -/

/-- C1: for every signing response, configuration directory, private-key path
and CA certificate for which the three file creations succeed (the call
returns none of the three creation errors), the file
`zz_controller_config.yml` holds the serialisation of a node configuration
with `pki.ca = "ca.crt"`, `pki.cert = "node.crt"`, `pki.key` the base name of
the private-key path, `pki.blocklist` and `static_host_map` those of the
response, `lighthouse.am_lighthouse = false` and `lighthouse.hosts` the
lighthouse list of the response. -/
theorem C1_node_config_contents (env : Env) (fs : FS) (r : SignResponse) (cp pk ca : String)
    (h1 : (CreateTempConfig env fs r cp pk ca).2 ≠ some "Could not create certificate file!")
    (h2 : (CreateTempConfig env fs r cp pk ca).2 ≠ some "Could not create ca file!")
    (h3 : (CreateTempConfig env fs r cp pk ca).2 ≠
      some "Could not create controller config set!") :
    (CreateTempConfig env fs r cp pk ca).1 (controllerSetConfigPath cp) =
      .file (env.yamlMarshal
        { PKI :=
            { CA := "ca.crt", Cert := "node.crt", Key := filepathBase pk,
              BlockList := r.BlockList }
          StaticHosts := r.StaticHosts
          Lighthouse := { AmLighthouse := false, Hosts := r.LightHouses } }) := by
  rw [CreateTempConfig_of_created env fs r cp pk ca h1 h2 h3, ← minNodeConfig_eq r cp pk]
  exact (seeded_files env fs r cp pk ca).2.2

/-- C1 on the scenario of the specification: the response with certificate,
static host map `lh1 ↦ 1.2.3.4:4242`, lighthouses `[lh1]` and an empty
blocklist, written into an empty directory `conf`. -/
theorem C1_node_config_contents_witness :
    (CreateTempConfig demoEnv emptyFS demoResponse "conf" "conf/node.key" "CA-PEM").2 = none ∧
    filepathBase "conf/node.key" = "node.key" ∧
    (CreateTempConfig demoEnv emptyFS demoResponse "conf" "conf/node.key" "CA-PEM").1
        (controllerSetConfigPath "conf") =
      .file (demoEnv.yamlMarshal
        { PKI :=
            { CA := "ca.crt", Cert := "node.crt", Key := filepathBase "conf/node.key",
              BlockList := [] }
          StaticHosts := [("lh1", ["1.2.3.4:4242"])]
          Lighthouse := { AmLighthouse := false, Hosts := ["lh1"] } }) :=
  ⟨by decide, by decide,
    C1_node_config_contents demoEnv emptyFS demoResponse "conf" "conf/node.key" "CA-PEM"
      (by decide) (by decide) (by decide)⟩

/-- C2, as stated, fails: with `conf/ca.crt` a directory that is not empty the
call returns the error of the CA file, and `conf/node.crt`, absent before, now
holds the certificate. -/
theorem C2_not_atomic :
    (CreateTempConfig demoEnv caDirFS demoResponse "conf" "conf/node.key" "CA-PEM").2 =
        some "Could not create ca file!" ∧
    caDirFS (certFilePath "conf") = .absent ∧
    (CreateTempConfig demoEnv caDirFS demoResponse "conf" "conf/node.key" "CA-PEM").1
        (certFilePath "conf") = .file "CERT-PEM" := by
  refine ⟨by decide, by decide, by decide⟩

/-- C2, amended: `CreateTempConfig` writes its three files one after the other
and stops at the first creation that fails.  When it returns an error, the
files that come after the failing one are as they were before the call and the
files before it already hold their new content: on the certificate error
`ca.crt` and `zz_controller_config.yml` are unchanged; on the CA error
`node.crt` holds the certificate and `zz_controller_config.yml` is unchanged;
on the configuration error `node.crt` and `ca.crt` hold their new content; on
an error of the `default.yml` step all three files are written. -/
theorem C2_sequential_writes (env : Env) (fs : FS) (r : SignResponse) (cp pk ca : String)
    (h : (CreateTempConfig env fs r cp pk ca).2 ≠ none) :
    ((CreateTempConfig env fs r cp pk ca).2 = some "Could not create certificate file!" ∧
      (CreateTempConfig env fs r cp pk ca).1 (caFilePath cp) = fs (caFilePath cp) ∧
      (CreateTempConfig env fs r cp pk ca).1 (controllerSetConfigPath cp) =
        fs (controllerSetConfigPath cp)) ∨
    ((CreateTempConfig env fs r cp pk ca).2 = some "Could not create ca file!" ∧
      (CreateTempConfig env fs r cp pk ca).1 (certFilePath cp) = .file r.Certificate ∧
      (CreateTempConfig env fs r cp pk ca).1 (controllerSetConfigPath cp) =
        fs (controllerSetConfigPath cp)) ∨
    ((CreateTempConfig env fs r cp pk ca).2 = some "Could not create controller config set!" ∧
      (CreateTempConfig env fs r cp pk ca).1 (certFilePath cp) = .file r.Certificate ∧
      (CreateTempConfig env fs r cp pk ca).1 (caFilePath cp) = .file ca) ∨
    (((CreateTempConfig env fs r cp pk ca).2 = some "Could not open default.yml!" ∨
        (CreateTempConfig env fs r cp pk ca).2 = some "Could not copy default.yml!") ∧
      (CreateTempConfig env fs r cp pk ca).1 (certFilePath cp) = .file r.Certificate ∧
      (CreateTempConfig env fs r cp pk ca).1 (caFilePath cp) = .file ca ∧
      (CreateTempConfig env fs r cp pk ca).1 (controllerSetConfigPath cp) =
        .file (env.yamlMarshal (minNodeConfig r cp pk))) := by
  have hac : caFilePath cp ≠ certFilePath cp :=
    filepathJoin_ne cp _ _ isElem_ca_crt isElem_node_crt (by decide)
  have hzc : controllerSetConfigPath cp ≠ certFilePath cp :=
    filepathJoin_ne cp _ _ isElem_zz isElem_node_crt (by decide)
  have hza : controllerSetConfigPath cp ≠ caFilePath cp :=
    filepathJoin_ne cp _ _ isElem_zz isElem_ca_crt (by decide)
  by_cases c1 : (fs (filepathJoin [cp, "node.crt"])).replaceable = false
  · left
    rw [CreateTempConfig_eq]
    simp [c1]
  · by_cases c2 : (fs (filepathJoin [cp, "ca.crt"])).replaceable = false
    · right; left
      rw [CreateTempConfig_eq]
      simp only [certFilePath, caFilePath, controllerSetConfigPath] at hac hzc hza ⊢
      simp [c1, c2, FS.set, hzc]
    · by_cases c3 : (fs (filepathJoin [cp, "zz_controller_config.yml"])).replaceable = false
      · right; right; left
        rw [CreateTempConfig_eq]
        simp only [certFilePath, caFilePath, controllerSetConfigPath] at hac hzc hza ⊢
        simp [c1, c2, c3, FS.set, hac.symm]
      · right; right; right
        have e : CreateTempConfig env fs r cp pk ca =
            seedDefault (artifactsWritten env fs r cp pk ca) cp := by
          rw [CreateTempConfig_eq]; simp [c1, c2, c3]
        rw [e] at h ⊢
        refine ⟨?_, seeded_files env fs r cp pk ca⟩
        rcases seedDefault_error _ _ h with ⟨h1, -⟩ | ⟨h1, -⟩
        · exact Or.inl h1
        · exact Or.inr h1

/-- C2 amended, on the file system with `conf/ca.crt` a directory. -/
theorem C2_sequential_writes_witness :
    (CreateTempConfig demoEnv caDirFS demoResponse "conf" "conf/node.key" "CA-PEM").2 ≠ none ∧
    (((CreateTempConfig demoEnv caDirFS demoResponse "conf" "conf/node.key" "CA-PEM").2 =
        some "Could not create certificate file!" ∧
      (CreateTempConfig demoEnv caDirFS demoResponse "conf" "conf/node.key" "CA-PEM").1
        (caFilePath "conf") = caDirFS (caFilePath "conf") ∧
      (CreateTempConfig demoEnv caDirFS demoResponse "conf" "conf/node.key" "CA-PEM").1
        (controllerSetConfigPath "conf") = caDirFS (controllerSetConfigPath "conf")) ∨
    ((CreateTempConfig demoEnv caDirFS demoResponse "conf" "conf/node.key" "CA-PEM").2 =
        some "Could not create ca file!" ∧
      (CreateTempConfig demoEnv caDirFS demoResponse "conf" "conf/node.key" "CA-PEM").1
        (certFilePath "conf") = .file demoResponse.Certificate ∧
      (CreateTempConfig demoEnv caDirFS demoResponse "conf" "conf/node.key" "CA-PEM").1
        (controllerSetConfigPath "conf") = caDirFS (controllerSetConfigPath "conf")) ∨
    ((CreateTempConfig demoEnv caDirFS demoResponse "conf" "conf/node.key" "CA-PEM").2 =
        some "Could not create controller config set!" ∧
      (CreateTempConfig demoEnv caDirFS demoResponse "conf" "conf/node.key" "CA-PEM").1
        (certFilePath "conf") = .file demoResponse.Certificate ∧
      (CreateTempConfig demoEnv caDirFS demoResponse "conf" "conf/node.key" "CA-PEM").1
        (caFilePath "conf") = .file "CA-PEM") ∨
    (((CreateTempConfig demoEnv caDirFS demoResponse "conf" "conf/node.key" "CA-PEM").2 =
          some "Could not open default.yml!" ∨
        (CreateTempConfig demoEnv caDirFS demoResponse "conf" "conf/node.key" "CA-PEM").2 =
          some "Could not copy default.yml!") ∧
      (CreateTempConfig demoEnv caDirFS demoResponse "conf" "conf/node.key" "CA-PEM").1
        (certFilePath "conf") = .file demoResponse.Certificate ∧
      (CreateTempConfig demoEnv caDirFS demoResponse "conf" "conf/node.key" "CA-PEM").1
        (caFilePath "conf") = .file "CA-PEM" ∧
      (CreateTempConfig demoEnv caDirFS demoResponse "conf" "conf/node.key" "CA-PEM").1
        (controllerSetConfigPath "conf") =
        .file (demoEnv.yamlMarshal (minNodeConfig demoResponse "conf" "conf/node.key")))) :=
  ⟨by decide,
    C2_sequential_writes demoEnv caDirFS demoResponse "conf" "conf/node.key" "CA-PEM"
      (by decide)⟩

/-- C7, as stated, fails: in an empty, writable configuration directory `conf`
the call does not succeed when the `default.yml` of the working directory is a
directory: it returns the error of the template. -/
theorem C7_call_can_fail :
    templateDirFS (certFilePath "conf") = .absent ∧
    templateDirFS (caFilePath "conf") = .absent ∧
    templateDirFS (controllerSetConfigPath "conf") = .absent ∧
    templateDirFS (defaultConfigPath "conf") = .absent ∧
    (CreateTempConfig demoEnv templateDirFS demoResponse "conf" "conf/node.key" "CA-PEM").2 =
      some "Could not open default.yml!" := by
  refine ⟨by decide, by decide, by decide, by decide, by decide⟩

/-- C7, amended: for every prior content of `node.crt`, `ca.crt` and
`zz_controller_config.yml` (each absent or a file) in a configuration
directory in which `default.yml` can be created, the three creations succeed
and afterwards the three files hold exactly the certificate of the response,
the CA certificate and the serialised configuration, whatever they held
before; the call returns `nil`, unless the directory has no `default.yml` and
the `default.yml` of the working directory is there and cannot be read, when
it returns the error of the template with the three files written all the
same; and a second call with the same arguments leaves the three files as the
first left them. -/
theorem C7_replacement (env : Env) (fs : FS) (r : SignResponse) (cp pk ca : String)
    (hc : fs (certFilePath cp) = .absent ∨ ∃ d, fs (certFilePath cp) = .file d)
    (ha : fs (caFilePath cp) = .absent ∨ ∃ d, fs (caFilePath cp) = .file d)
    (hz : fs (controllerSetConfigPath cp) = .absent ∨
      ∃ d, fs (controllerSetConfigPath cp) = .file d)
    (hd : ∀ b, fs (defaultConfigPath cp) ≠ .blocked b) :
    (CreateTempConfig env fs r cp pk ca).1 (certFilePath cp) = .file r.Certificate ∧
    (CreateTempConfig env fs r cp pk ca).1 (caFilePath cp) = .file ca ∧
    (CreateTempConfig env fs r cp pk ca).1 (controllerSetConfigPath cp) =
      .file (env.yamlMarshal (minNodeConfig r cp pk)) ∧
    ((CreateTempConfig env fs r cp pk ca).2 = none ∨
      ((CreateTempConfig env fs r cp pk ca).2 = some "Could not open default.yml!" ∧
        fs (defaultConfigPath cp) = .absent ∧ ∃ e, fs "default.yml" = .dir e)) ∧
    (CreateTempConfig env (CreateTempConfig env fs r cp pk ca).1 r cp pk ca).1 (certFilePath cp) =
      (CreateTempConfig env fs r cp pk ca).1 (certFilePath cp) ∧
    (CreateTempConfig env (CreateTempConfig env fs r cp pk ca).1 r cp pk ca).1 (caFilePath cp) =
      (CreateTempConfig env fs r cp pk ca).1 (caFilePath cp) ∧
    (CreateTempConfig env (CreateTempConfig env fs r cp pk ca).1 r cp pk ca).1
        (controllerSetConfigPath cp) =
      (CreateTempConfig env fs r cp pk ca).1 (controllerSetConfigPath cp) ∧
    ((fs (defaultConfigPath cp) = .absent ∧ ∃ e, fs "default.yml" = .dir e) →
      (CreateTempConfig env fs r cp pk ca).2 = some "Could not open default.yml!") ∧
    (¬ (fs (defaultConfigPath cp) = .absent ∧ ∃ e, fs "default.yml" = .dir e) →
      (CreateTempConfig env fs r cp pk ca).2 = none) := by
  have rep : ∀ (g : FS) (p : String), (g p = .absent ∨ ∃ d, g p = .file d) →
      (g p).replaceable = true := by
    intro g p h
    rcases h with h | ⟨d, h⟩ <;> simp [h, Entry.replaceable]
  have e1 := CreateTempConfig_of_replaceable env fs r cp pk ca (rep _ _ hc) (rep _ _ ha)
    (rep _ _ hz)
  obtain ⟨f1, f2, f3⟩ := seeded_files env fs r cp pk ca
  rw [← e1] at f1 f2 f3
  have e2 := CreateTempConfig_of_replaceable env (CreateTempConfig env fs r cp pk ca).1 r cp pk ca
    (rep _ _ (Or.inr ⟨_, f1⟩)) (rep _ _ (Or.inr ⟨_, f2⟩)) (rep _ _ (Or.inr ⟨_, f3⟩))
  obtain ⟨g1, g2, g3⟩ := seeded_files env (CreateTempConfig env fs r cp pk ca).1 r cp pk ca
  rw [← e2] at g1 g2 g3
  obtain ⟨d1, d2, d3⟩ := default_ne_artifacts cp
  obtain ⟨t1, t2, t3⟩ := template_ne_artifacts cp
  have hpd : artifactsWritten env fs r cp pk ca (defaultConfigPath cp) =
      fs (defaultConfigPath cp) := artifactsWritten_other _ _ _ _ _ _ _ d1 d2 d3
  have hpt : artifactsWritten env fs r cp pk ca "default.yml" = fs "default.yml" :=
    artifactsWritten_other _ _ _ _ _ _ _ t1 t2 t3
  have hor : (CreateTempConfig env fs r cp pk ca).2 = none ∨
      ((CreateTempConfig env fs r cp pk ca).2 = some "Could not open default.yml!" ∧
        fs (defaultConfigPath cp) = .absent ∧ ∃ e, fs "default.yml" = .dir e) := by
    by_cases hn : (CreateTempConfig env fs r cp pk ca).2 = none
    · exact Or.inl hn
    · right
      rw [e1] at hn ⊢
      rcases seedDefault_error _ _ hn with ⟨h1, h2, h3⟩ | ⟨-, h3⟩
      · rw [hpt] at h2
        refine ⟨h1, ?_, h2⟩
        rcases h3 with h3 | h3
        · rw [← hpd]; exact h3
        · exact absurd (hpd ▸ h3) (hd true)
      · exact absurd (hpd ▸ h3) (hd true)
  refine ⟨f1, f2, f3, hor, by rw [g1, f1], by rw [g2, f2], by rw [g3, f3], ?_, ?_⟩
  · rintro ⟨ha0, e, he⟩
    rw [e1]
    exact seedDefault_unreadable _ _ e (hpd.trans ha0) (hpt.trans he)
  · intro hcond
    rcases hor with h | ⟨-, h2, h3⟩
    · exact h
    · exact absurd ⟨h2, h3⟩ hcond

/-- C7 amended, on the directory `conf` that an earlier run has provisioned:
the old certificate, CA certificate and configuration are replaced by the new
ones, the call returns `nil`, and a second call leaves the three files as the
first left them; and with `default.yml` of the working directory a directory,
the three files are replaced all the same and the call returns the error of
the template. -/
theorem C7_replacement_witness :
    (provisionedFS (certFilePath "conf") = .file "OLD-CERT" ∧
      provisionedFS (caFilePath "conf") = .file "CA-PEM" ∧
      provisionedFS (controllerSetConfigPath "conf") = .file "OLD-CONFIG") ∧
    ((CreateTempConfig demoEnv provisionedFS demoResponse "conf" "conf/node.key" "NEW-CA").1
        (certFilePath "conf") = .file "CERT-PEM" ∧
      (CreateTempConfig demoEnv provisionedFS demoResponse "conf" "conf/node.key" "NEW-CA").1
        (caFilePath "conf") = .file "NEW-CA" ∧
      (CreateTempConfig demoEnv provisionedFS demoResponse "conf" "conf/node.key" "NEW-CA").1
        (controllerSetConfigPath "conf") =
          .file (demoEnv.yamlMarshal (minNodeConfig demoResponse "conf" "conf/node.key")) ∧
      (CreateTempConfig demoEnv provisionedFS demoResponse "conf" "conf/node.key" "NEW-CA").2 =
        none) ∧
    ((CreateTempConfig demoEnv
        (CreateTempConfig demoEnv provisionedFS demoResponse "conf" "conf/node.key" "NEW-CA").1
        demoResponse "conf" "conf/node.key" "NEW-CA").1 (certFilePath "conf") =
        (CreateTempConfig demoEnv provisionedFS demoResponse "conf" "conf/node.key" "NEW-CA").1
          (certFilePath "conf") ∧
      (CreateTempConfig demoEnv
        (CreateTempConfig demoEnv provisionedFS demoResponse "conf" "conf/node.key" "NEW-CA").1
        demoResponse "conf" "conf/node.key" "NEW-CA").1 (caFilePath "conf") =
        (CreateTempConfig demoEnv provisionedFS demoResponse "conf" "conf/node.key" "NEW-CA").1
          (caFilePath "conf") ∧
      (CreateTempConfig demoEnv
        (CreateTempConfig demoEnv provisionedFS demoResponse "conf" "conf/node.key" "NEW-CA").1
        demoResponse "conf" "conf/node.key" "NEW-CA").1 (controllerSetConfigPath "conf") =
        (CreateTempConfig demoEnv provisionedFS demoResponse "conf" "conf/node.key" "NEW-CA").1
          (controllerSetConfigPath "conf")) ∧
    ((CreateTempConfig demoEnv provisionedTemplateDirFS demoResponse "conf" "conf/node.key"
        "NEW-CA").1 (certFilePath "conf") = .file "CERT-PEM" ∧
      (CreateTempConfig demoEnv provisionedTemplateDirFS demoResponse "conf" "conf/node.key"
        "NEW-CA").1 (caFilePath "conf") = .file "NEW-CA" ∧
      (CreateTempConfig demoEnv provisionedTemplateDirFS demoResponse "conf" "conf/node.key"
        "NEW-CA").2 = some "Could not open default.yml!") :=
  have h := C7_replacement demoEnv provisionedFS demoResponse "conf" "conf/node.key" "NEW-CA"
    (Or.inr ⟨"OLD-CERT", by decide⟩) (Or.inr ⟨"CA-PEM", by decide⟩)
    (Or.inr ⟨"OLD-CONFIG", by decide⟩) (fun b => by cases b <;> decide)
  have g := C7_replacement demoEnv provisionedTemplateDirFS demoResponse "conf" "conf/node.key"
    "NEW-CA" (Or.inr ⟨"OLD-CERT", by decide⟩) (Or.inr ⟨"CA-PEM", by decide⟩)
    (Or.inr ⟨"OLD-CONFIG", by decide⟩) (fun b => by cases b <;> decide)
  ⟨⟨by decide, by decide, by decide⟩,
    ⟨h.1, h.2.1, h.2.2.1,
      h.2.2.2.2.2.2.2.2 (by
        rintro ⟨-, e, he⟩
        cases e <;> exact absurd he (by decide))⟩,
    ⟨h.2.2.2.2.1, h.2.2.2.2.2.1, h.2.2.2.2.2.2.1⟩,
    ⟨g.1, g.2.1, g.2.2.2.2.2.2.2.1 ⟨by decide, false, by decide⟩⟩⟩

/-- C8, as stated, fails: with a template in the working directory and no
`default.yml` in the configuration directory `conf`, a call that stops at the
certificate file (here a directory that is not empty) leaves `conf` without a
`default.yml`. -/
theorem C8_no_seeding_after_failure :
    certDirFS "default.yml" = .file "TEMPLATE" ∧
    certDirFS (defaultConfigPath "conf") = .absent ∧
    (CreateTempConfig demoEnv certDirFS demoResponse "conf" "conf/node.key" "CA-PEM").2 =
      some "Could not create certificate file!" ∧
    (CreateTempConfig demoEnv certDirFS demoResponse "conf" "conf/node.key" "CA-PEM").1
      (defaultConfigPath "conf") = .absent := by
  refine ⟨by decide, by decide, by decide, by decide⟩

/-- C8, amended: if the working directory has a file `default.yml`, the
configuration directory has none and the three creations of the call succeed,
then the call returns `nil` and the configuration directory holds a
`default.yml` with the content of the template; and if the configuration
directory already has a file `default.yml`, placed by an earlier call or not,
every call leaves its content as it is, whatever the template holds by then. -/
theorem C8_default_seeding (env : Env) (fs : FS) (r : SignResponse) (cp pk ca : String) :
    (∀ t, fs "default.yml" = .file t → fs (defaultConfigPath cp) = .absent →
      (CreateTempConfig env fs r cp pk ca).2 ≠ some "Could not create certificate file!" →
      (CreateTempConfig env fs r cp pk ca).2 ≠ some "Could not create ca file!" →
      (CreateTempConfig env fs r cp pk ca).2 ≠ some "Could not create controller config set!" →
      (CreateTempConfig env fs r cp pk ca).2 = none ∧
      (CreateTempConfig env fs r cp pk ca).1 (defaultConfigPath cp) = .file t) ∧
    (∀ d, fs (defaultConfigPath cp) = .file d →
      (CreateTempConfig env fs r cp pk ca).1 (defaultConfigPath cp) = .file d) := by
  refine ⟨?_, fun d h => CreateTempConfig_default_kept env fs r cp pk ca d h⟩
  intro t ht hd h1 h2 h3
  obtain ⟨d1, d2, d3⟩ := default_ne_artifacts cp
  obtain ⟨t1, t2, t3⟩ := template_ne_artifacts cp
  have hpd : artifactsWritten env fs r cp pk ca (defaultConfigPath cp) = .absent := by
    rw [artifactsWritten_other _ _ _ _ _ _ _ d1 d2 d3]; exact hd
  have hpt : artifactsWritten env fs r cp pk ca "default.yml" = .file t := by
    rw [artifactsWritten_other _ _ _ _ _ _ _ t1 t2 t3]; exact ht
  rw [CreateTempConfig_of_created env fs r cp pk ca h1 h2 h3, seedDefault_copies _ _ _ hpd hpt]
  exact ⟨rfl, FS.set_same _ _ _⟩

/-- C8 amended, on an empty configuration directory `conf` and a working
directory with a template. -/
theorem C8_default_seeding_witness :
    templateFS "default.yml" = .file "TEMPLATE" ∧
    templateFS (defaultConfigPath "conf") = .absent ∧
    (CreateTempConfig demoEnv templateFS demoResponse "conf" "conf/node.key" "CA-PEM").2 = none ∧
    (CreateTempConfig demoEnv templateFS demoResponse "conf" "conf/node.key" "CA-PEM").1
      (defaultConfigPath "conf") = .file "TEMPLATE" :=
  ⟨by decide, by decide,
    (C8_default_seeding demoEnv templateFS demoResponse "conf" "conf/node.key" "CA-PEM").1
      "TEMPLATE" (by decide) (by decide) (by decide) (by decide) (by decide)⟩

/-! ## The calls to the controller -/

theorem osReadFile_ok (fs : FS) (p data : String) :
    osReadFile fs p = .ok data ↔ fs p = .file data := by
  unfold osReadFile
  cases h : fs p <;> simp

/-- The runs of `signPublicKey`. -/
theorem signPublicKey_cases (env : Env) (w : World) (cfg : NebulaConfig) (token f : String) :
    (∃ e, signPublicKey env w cfg token f = (w, .ret (.error e))) ∨
    (∃ pem, w.fs f = .file pem ∧
      ((∃ e, env.httpDo (signHttpRequest cfg token pem) = .error e ∧
          signPublicKey env w cfg token f =
            ({ w with sent := w.sent ++ [signHttpRequest cfg token pem] }, .ret (.error e))) ∨
        (∃ resp, env.httpDo (signHttpRequest cfg token pem) = .ok resp ∧
          resp.StatusCode ≠ 200 ∧
          signPublicKey env w cfg token f =
            ({ w with sent := w.sent ++ [signHttpRequest cfg token pem] }, .fatal resp.Body)) ∨
        (∃ resp e, env.httpDo (signHttpRequest cfg token pem) = .ok resp ∧
          resp.StatusCode = 200 ∧ env.decodeSignResponse resp.Body = .error e ∧
          signPublicKey env w cfg token f =
            ({ w with sent := w.sent ++ [signHttpRequest cfg token pem] }, .ret (.error e))) ∨
        (∃ resp sr, env.httpDo (signHttpRequest cfg token pem) = .ok resp ∧
          resp.StatusCode = 200 ∧ env.decodeSignResponse resp.Body = .ok sr ∧
          signPublicKey env w cfg token f =
            ({ w with sent := w.sent ++ [signHttpRequest cfg token pem] }, .ret (.ok sr))))) := by
  cases hr : osReadFile w.fs f with
  | error e => exact Or.inl ⟨e, by simp [signPublicKey, hr]⟩
  | ok pem =>
    have hf : w.fs f = .file pem := (osReadFile_ok _ _ _).1 hr
    cases hp : env.urlParse cfg.SignEndpoint with
    | error e => left; exact ⟨e, by simp [signPublicKey, hr, httpNewRequest, hp]⟩
    | ok u =>
      right
      refine ⟨pem, hf, ?_⟩
      have hreq : HttpRequest.addHeader (HttpRequest.addHeader
          ⟨"POST", cfg.SignEndpoint, [], .sign ⟨pem, 0, ""⟩⟩ "Authorization"
            ("Bearer " ++ token)) "Content-Type" "application/json" =
          signHttpRequest cfg token pem := rfl
      cases hd : env.httpDo (signHttpRequest cfg token pem) with
      | error e =>
        left
        exact ⟨e, rfl, by simp only [signPublicKey, hr, httpNewRequest, hp, hreq, hd]⟩
      | ok resp =>
        right
        by_cases hs : resp.StatusCode = 200
        · right
          cases hdec : env.decodeSignResponse resp.Body with
          | error e =>
            left
            exact ⟨resp, e, rfl, hs, hdec,
              by simp [signPublicKey, hr, httpNewRequest, hp, hreq, hd, hs, hdec]⟩
          | ok sr =>
            right
            exact ⟨resp, sr, rfl, hs, hdec,
              by simp [signPublicKey, hr, httpNewRequest, hp, hreq, hd, hs, hdec]⟩
        · left
          exact ⟨resp, rfl, hs, by simp [signPublicKey, hr, httpNewRequest, hp, hreq, hd, hs]⟩

/-- The runs of `EnrollOnServer`. -/
theorem EnrollOnServer_cases (env : Env) (w : World) (serverURL ott f : String) :
    (∃ e, EnrollOnServer env w serverURL ott f = (w, .ret (.error e))) ∨
    (∃ pem, w.fs f = .file pem ∧
      ((∃ e, env.urlParse serverURL = .error e ∧
          EnrollOnServer env w serverURL ott f = (w, .panic nilDereference)) ∨
      (∃ u0, env.urlParse serverURL = .ok u0 ∧
        ((∃ e, env.httpDo (enrollHttpRequest u0 ott pem) = .error e ∧
          EnrollOnServer env w serverURL ott f =
            ({ w with sent := w.sent ++ [enrollHttpRequest u0 ott pem] }, .ret (.error e))) ∨
        (∃ resp e, env.httpDo (enrollHttpRequest u0 ott pem) = .ok resp ∧
          resp.StatusCode ≠ 200 ∧ env.decodeControllerError resp.Body = .error e ∧
          EnrollOnServer env w serverURL ott f =
            ({ w with sent := w.sent ++ [enrollHttpRequest u0 ott pem] }, .ret (.error e))) ∨
        (∃ resp ce, env.httpDo (enrollHttpRequest u0 ott pem) = .ok resp ∧
          resp.StatusCode ≠ 200 ∧ env.decodeControllerError resp.Body = .ok ce ∧
          EnrollOnServer env w serverURL ott f =
            ({ w with sent := w.sent ++ [enrollHttpRequest u0 ott pem] },
              .ret (.error ce.Message))) ∨
        (∃ resp e, env.httpDo (enrollHttpRequest u0 ott pem) = .ok resp ∧
          resp.StatusCode = 200 ∧ env.decodeSignResponse resp.Body = .error e ∧
          EnrollOnServer env w serverURL ott f =
            ({ w with sent := w.sent ++ [enrollHttpRequest u0 ott pem] }, .ret (.error e))) ∨
        (∃ resp sr, env.httpDo (enrollHttpRequest u0 ott pem) = .ok resp ∧
          resp.StatusCode = 200 ∧ env.decodeSignResponse resp.Body = .ok sr ∧
          EnrollOnServer env w serverURL ott f =
            ({ w with sent := w.sent ++ [enrollHttpRequest u0 ott pem] },
              .ret (.ok sr))))))) := by
  cases hr : osReadFile w.fs f with
  | error e => exact Or.inl ⟨e, by simp [EnrollOnServer, hr]⟩
  | ok pem =>
    have hf : w.fs f = .file pem := (osReadFile_ok _ _ _).1 hr
    cases hp : env.urlParse serverURL with
    | error e => right; exact ⟨pem, hf, Or.inl ⟨e, rfl, by simp [EnrollOnServer, hr, hp]⟩⟩
    | ok u0 =>
      cases hp2 : env.urlParse (endpoint u0 "enroll").String with
      | error e => left; exact ⟨e, by simp [EnrollOnServer, hr, hp, httpNewRequest, hp2]⟩
      | ok u =>
        right
        refine ⟨pem, hf, Or.inr ⟨u0, rfl, ?_⟩⟩
        have hreq : HttpRequest.addHeader
            ⟨"POST", (endpoint u0 "enroll").String, [], .enroll ⟨ott, pem⟩⟩
              "Content-Type" "application/json" = enrollHttpRequest u0 ott pem := rfl
        cases hd : env.httpDo (enrollHttpRequest u0 ott pem) with
        | error e =>
          left
          exact ⟨e, rfl, by simp only [EnrollOnServer, hr, hp, httpNewRequest, hp2, hreq, hd]⟩
        | ok resp =>
          right
          by_cases hs : resp.StatusCode = 200
          · right; right
            cases hdec : env.decodeSignResponse resp.Body with
            | error e =>
              left
              exact ⟨resp, e, rfl, hs, hdec,
                by simp [EnrollOnServer, hr, hp, httpNewRequest, hp2, hreq, hd, hs, hdec]⟩
            | ok sr =>
              right
              exact ⟨resp, sr, rfl, hs, hdec,
                by simp [EnrollOnServer, hr, hp, httpNewRequest, hp2, hreq, hd, hs, hdec]⟩
          · cases hdec : env.decodeControllerError resp.Body with
            | error e =>
              left
              exact ⟨resp, e, rfl, hs, hdec,
                by simp [EnrollOnServer, hr, hp, httpNewRequest, hp2, hreq, hd, hs, hdec]⟩
            | ok ce =>
              right; left
              exact ⟨resp, ce, rfl, hs, hdec,
                by simp [EnrollOnServer, hr, hp, httpNewRequest, hp2, hreq, hd, hs, hdec]⟩

theorem sent_ne_self (l : List HttpRequest) (req : HttpRequest) : l ≠ l ++ [req] := by
  intro h
  have := congrArg List.length h
  simp at this

/-- C5: for every enrollment call whose HTTP response has a status other than
200 (the call handed the request `req` to the HTTP client and the answer
`resp` to it has another status), no `SignResponse` is returned and the call
returns an error instead of aborting; when the body decodes as a controller
error, the text of the returned error is the message of the controller. -/
theorem C5_enroll_failure_is_returned (env : Env) (w : World) (serverURL ott pubKeyFile : String)
    (req : HttpRequest) (resp : HttpResponse)
    (hsent : (EnrollOnServer env w serverURL ott pubKeyFile).1.sent = w.sent ++ [req])
    (hdo : env.httpDo req = .ok resp) (hst : resp.StatusCode ≠ 200) :
    ∃ e, (EnrollOnServer env w serverURL ott pubKeyFile).2 = .ret (.error e) ∧
      ∀ ce, env.decodeControllerError resp.Body = .ok ce → e = ce.Message := by
  rcases EnrollOnServer_cases env w serverURL ott pubKeyFile with ⟨e, h⟩ | ⟨pem, -, h⟩
  · rw [h] at hsent; exact absurd hsent (sent_ne_self _ _)
  · rcases h with ⟨e, -, h⟩ | ⟨u0, -, h⟩
    · rw [h] at hsent; exact absurd hsent (sent_ne_self _ _)
    · have key : ∀ r, (EnrollOnServer env w serverURL ott pubKeyFile).1 =
          { w with sent := w.sent ++ [enrollHttpRequest u0 ott pem] } →
          env.httpDo (enrollHttpRequest u0 ott pem) = .ok r → r = resp := by
        intro r h1 h2
        rw [h1] at hsent
        have : enrollHttpRequest u0 ott pem = req := by simpa using hsent
        rw [this, hdo] at h2
        exact (Except.ok.inj h2).symm
      rcases h with ⟨e, h1, h⟩ | ⟨r, e, h1, h2, h3, h⟩ | ⟨r, ce, h1, h2, h3, h⟩ |
        ⟨r, e, h1, h2, h3, h⟩ | ⟨r, sr, h1, h2, h3, h⟩
      · rw [h] at hsent
        have : enrollHttpRequest u0 ott pem = req := by simpa using hsent
        rw [this, hdo] at h1
        cases h1
      · have hr := key r (by rw [h]) h1
        subst hr
        refine ⟨e, by rw [h], ?_⟩
        intro ce hce
        rw [h3] at hce
        cases hce
      · have hr := key r (by rw [h]) h1
        subst hr
        refine ⟨ce.Message, by rw [h], ?_⟩
        intro ce2 hce
        rw [h3] at hce
        cases hce
        rfl
      · have hr := key r (by rw [h]) h1
        subst hr
        exact absurd h2 hst
      · have hr := key r (by rw [h]) h1
        subst hr
        exact absurd h2 hst

/-- C5 on the sample controller: an enrollment with a wrong token is answered
403 with a controller error, whose message the call returns. -/
theorem C5_enroll_failure_is_returned_witness :
    ∃ e, (EnrollOnServer demoEnv ⟨keyedFS, []⟩ "https://ctrl.example.com/api" "bad"
        "conf/node.pub").2 = .ret (.error e) ∧
      ∀ ce, demoEnv.decodeControllerError "DENIED" = .ok ce → e = ce.Message :=
  C5_enroll_failure_is_returned demoEnv ⟨keyedFS, []⟩ "https://ctrl.example.com/api" "bad"
    "conf/node.pub" (enrollHttpRequest demoBase "bad" "PUB") ⟨403, "DENIED"⟩
    (by decide) rfl (by decide)

/-- C10: the code at a URL that does not parse.  `GetControllerInfo` faults on
the nil URL, and so does `EnrollOnServer` once it has read the public key
file; neither returns an error and neither hands a request to the HTTP
client. -/
theorem C10_parse_error_faults (env : Env) (w : World) (urlStr ott pubKeyFile pem e : String)
    (hparse : env.urlParse urlStr = .error e) (hread : w.fs pubKeyFile = .file pem) :
    GetControllerInfo env w urlStr = (w, .panic nilDereference) ∧
    EnrollOnServer env w urlStr ott pubKeyFile = (w, .panic nilDereference) := by
  constructor
  · simp [GetControllerInfo, hparse]
  · simp [EnrollOnServer, (osReadFile_ok _ _ _).2 hread, hparse]

/-- C10 at the URL `:`, which `url.Parse` rejects for its missing scheme. -/
theorem C10_parse_error_faults_witness :
    GetControllerInfo demoEnv ⟨keyedFS, []⟩ ":" = (⟨keyedFS, []⟩, .panic nilDereference) ∧
    EnrollOnServer demoEnv ⟨keyedFS, []⟩ ":" "OTT" "conf/node.pub" =
      (⟨keyedFS, []⟩, .panic nilDereference) :=
  C10_parse_error_faults demoEnv ⟨keyedFS, []⟩ ":" "OTT" "conf/node.pub" "PUB"
    "missing protocol scheme" rfl (by decide)

/-! ## The two runs -/

theorem ioutilWriteFile_ok (fs : FS) (p data : String) (h : (fs p).replaceable = true) :
    ioutilWriteFile (osRemove fs p) p data = .ok (fs.set p (.file data)) := by
  simp [ioutilWriteFile, replace_ok fs p h, fileWrite_fresh]

theorem ioutilWriteFile_err (fs : FS) (p data : String) (h : (fs p).replaceable = false) :
    osRemove fs p = fs ∧ ∃ e, ioutilWriteFile fs p data = .error e := by
  obtain ⟨e1, e2⟩ := replace_err fs p h
  exact ⟨e1, pathError "open" p (fs p), by simp [ioutilWriteFile, e2]⟩

theorem pub_ne_key (cp : String) : privKeyPath cp ≠ pubKeyPath cp :=
  filepathJoin_ne cp _ _ isElem_node_key isElem_node_pub (by decide)

/-- The runs of `createTempKey` with the random bytes `priv`. -/
theorem createTempKey_cases (env : Env) (priv : Key) (w : World) (cp : String) :
    (∃ m, createTempKey env (.ok priv) w cp = (w, .fatal m)) ∨
    (∃ m, createTempKey env (.ok priv) w cp =
      ({ w with fs := (w.fs.set (pubKeyPath cp)
          (.file (env.MarshalX25519PublicKey (env.ScalarBaseMult priv)))) }, .fatal m)) ∨
    createTempKey env (.ok priv) w cp =
      ({ w with fs := keysWritten env priv w.fs cp }, .ret (pubKeyPath cp, privKeyPath cp)) := by
  by_cases c1 : (w.fs (pathJoin [cp, "node.pub"])).replaceable = false
  · left
    obtain ⟨e1, e, e2⟩ := ioutilWriteFile_err w.fs (pathJoin [cp, "node.pub"])
      (env.MarshalX25519PublicKey (env.ScalarBaseMult priv)) c1
    exact ⟨"Could not save temp public key!", by simp only [createTempKey, e1, e2]⟩
  · have c1t : (w.fs (pathJoin [cp, "node.pub"])).replaceable = true := by simpa using c1
    right
    by_cases c2 : (w.fs (pathJoin [cp, "node.key"])).replaceable = false
    · left
      have c2x : ((w.fs.set (pathJoin [cp, "node.pub"])
          (.file (env.MarshalX25519PublicKey (env.ScalarBaseMult priv))))
            (pathJoin [cp, "node.key"])).replaceable = false := by
        rw [FS.set_other _ _ _ _ (pub_ne_key cp)]; exact c2
      obtain ⟨e1, e, e2⟩ := ioutilWriteFile_err _ (pathJoin [cp, "node.key"])
        (env.MarshalX25519PrivateKey priv) c2x
      exact ⟨"error while writing out-key: " ++ e,
        by simp only [createTempKey, ioutilWriteFile_ok _ _ _ c1t, e1, e2, pubKeyPath]⟩
    · right
      have c2t : ((w.fs.set (pathJoin [cp, "node.pub"])
          (.file (env.MarshalX25519PublicKey (env.ScalarBaseMult priv))))
            (pathJoin [cp, "node.key"])).replaceable = true := by
        rw [FS.set_other _ _ _ _ (pub_ne_key cp)]; simpa using c2
      simp only [createTempKey, ioutilWriteFile_ok _ _ _ c1t, ioutilWriteFile_ok _ _ _ c2t,
        keysWritten, pubKeyPath, privKeyPath]

theorem keysWritten_files (env : Env) (priv : Key) (fs : FS) (cp : String) :
    keysWritten env priv fs cp (pubKeyPath cp) =
        .file (env.MarshalX25519PublicKey (env.ScalarBaseMult priv)) ∧
    keysWritten env priv fs cp (privKeyPath cp) = .file (env.MarshalX25519PrivateKey priv) := by
  have h := pub_ne_key cp
  simp only [pubKeyPath, privKeyPath] at h ⊢
  constructor
  · simp [keysWritten, FS.set, h.symm]
  · simp [keysWritten, FS.set]

theorem keysWritten_other (env : Env) (priv : Key) (fs : FS) (cp q : String)
    (h1 : q ≠ pubKeyPath cp) (h2 : q ≠ privKeyPath cp) : keysWritten env priv fs cp q = fs q := by
  simp only [pubKeyPath, privKeyPath] at h1 h2
  simp [keysWritten, FS.set, h1, h2]

/-- The four names `CreateTempConfig` writes are not the names of the keys. -/
theorem artifacts_ne_keys (cp : String) :
    (certFilePath cp ≠ pubKeyPath cp ∧ certFilePath cp ≠ privKeyPath cp) ∧
    (caFilePath cp ≠ pubKeyPath cp ∧ caFilePath cp ≠ privKeyPath cp) ∧
    (controllerSetConfigPath cp ≠ pubKeyPath cp ∧ controllerSetConfigPath cp ≠ privKeyPath cp) ∧
    (defaultConfigPath cp ≠ pubKeyPath cp ∧ defaultConfigPath cp ≠ privKeyPath cp) :=
  ⟨⟨filepathJoin_ne cp _ _ isElem_node_crt isElem_node_pub (by decide),
      filepathJoin_ne cp _ _ isElem_node_crt isElem_node_key (by decide)⟩,
    ⟨filepathJoin_ne cp _ _ isElem_ca_crt isElem_node_pub (by decide),
      filepathJoin_ne cp _ _ isElem_ca_crt isElem_node_key (by decide)⟩,
    ⟨filepathJoin_ne cp _ _ isElem_zz isElem_node_pub (by decide),
      filepathJoin_ne cp _ _ isElem_zz isElem_node_key (by decide)⟩,
    ⟨filepathJoin_ne cp _ _ isElem_default isElem_node_pub (by decide),
      filepathJoin_ne cp _ _ isElem_default isElem_node_key (by decide)⟩⟩

/-- The runs of `ConfigureOIDCTunnel` with the random bytes `priv`: either no
request is handed to the HTTP client and the run does not succeed, or the keys
are written, the request with the public key of `priv` is handed out and the
run goes on as the answer says. -/
theorem ConfigureOIDCTunnel_cases (env : Env) (priv : Key) (w : World) (token cp : String)
    (cfg : NebulaConfig) :
    ((ConfigureOIDCTunnel env (.ok priv) w token cp cfg).1.sent = w.sent ∧
      (ConfigureOIDCTunnel env (.ok priv) w token cp cfg).2 ≠ .ret none) ∨
    (∃ e, env.httpDo (signHttpRequest cfg token
          (env.MarshalX25519PublicKey (env.ScalarBaseMult priv))) = .error e ∧
      ConfigureOIDCTunnel env (.ok priv) w token cp cfg =
        (afterRequest env priv w cp (signHttpRequest cfg token
            (env.MarshalX25519PublicKey (env.ScalarBaseMult priv))),
          .ret (some ("Bad sign response from controller: " ++ e)))) ∨
    (∃ resp, env.httpDo (signHttpRequest cfg token
          (env.MarshalX25519PublicKey (env.ScalarBaseMult priv))) = .ok resp ∧
      resp.StatusCode ≠ 200 ∧
      ConfigureOIDCTunnel env (.ok priv) w token cp cfg =
        (afterRequest env priv w cp (signHttpRequest cfg token
            (env.MarshalX25519PublicKey (env.ScalarBaseMult priv))), .fatal resp.Body)) ∨
    (∃ resp e, env.httpDo (signHttpRequest cfg token
          (env.MarshalX25519PublicKey (env.ScalarBaseMult priv))) = .ok resp ∧
      resp.StatusCode = 200 ∧ env.decodeSignResponse resp.Body = .error e ∧
      ConfigureOIDCTunnel env (.ok priv) w token cp cfg =
        (afterRequest env priv w cp (signHttpRequest cfg token
            (env.MarshalX25519PublicKey (env.ScalarBaseMult priv))),
          .ret (some ("Bad sign response from controller: " ++ e)))) ∨
    (∃ resp sr, env.httpDo (signHttpRequest cfg token
          (env.MarshalX25519PublicKey (env.ScalarBaseMult priv))) = .ok resp ∧
      resp.StatusCode = 200 ∧ env.decodeSignResponse resp.Body = .ok sr ∧
      ConfigureOIDCTunnel env (.ok priv) w token cp cfg =
        ({ afterRequest env priv w cp (signHttpRequest cfg token
              (env.MarshalX25519PublicKey (env.ScalarBaseMult priv))) with
            fs := (CreateTempConfig env (keysWritten env priv w.fs cp) sr cp (privKeyPath cp)
              cfg.CACert).1 },
          .ret (CreateTempConfig env (keysWritten env priv w.fs cp) sr cp (privKeyPath cp)
            cfg.CACert).2)) := by
  rcases createTempKey_cases env priv w cp with ⟨m, h⟩ | ⟨m, h⟩ | h
  · left; simp only [ConfigureOIDCTunnel, h]; simp
  · left; simp only [ConfigureOIDCTunnel, h]; simp
  · have hpub := (keysWritten_files env priv w.fs cp).1
    rcases signPublicKey_cases env { w with fs := keysWritten env priv w.fs cp } cfg token
      (pubKeyPath cp) with ⟨e, hs⟩ | ⟨pem, hf, hs⟩
    · left; simp only [ConfigureOIDCTunnel, h, hs]; simp
    · have hpem : pem = env.MarshalX25519PublicKey (env.ScalarBaseMult priv) := by
        have := hf.symm.trans hpub
        exact Entry.file.inj this
      subst hpem
      right
      rcases hs with ⟨e, h1, hs⟩ | ⟨resp, h1, h2, hs⟩ | ⟨resp, e, h1, h2, h3, hs⟩ |
        ⟨resp, sr, h1, h2, h3, hs⟩
      · left; exact ⟨e, h1, by simp only [ConfigureOIDCTunnel, h, hs, afterRequest]⟩
      · right; left
        exact ⟨resp, h1, h2, by simp only [ConfigureOIDCTunnel, h, hs, afterRequest]⟩
      · right; right; left
        exact ⟨resp, e, h1, h2, h3, by simp only [ConfigureOIDCTunnel, h, hs, afterRequest]⟩
      · right; right; right
        exact ⟨resp, sr, h1, h2, h3, by simp only [ConfigureOIDCTunnel, h, hs, afterRequest]⟩

/-- The runs of `ConfigureEnrolledTunnel` with the random bytes `priv`. -/
theorem ConfigureEnrolledTunnel_cases (env : Env) (priv : Key) (w : World)
    (serverURL ott cp : String) (cfg : NebulaConfig) :
    ((ConfigureEnrolledTunnel env (.ok priv) w serverURL ott cp cfg).1.sent = w.sent ∧
      (ConfigureEnrolledTunnel env (.ok priv) w serverURL ott cp cfg).2 ≠ .ret none) ∨
    (∃ u0, env.urlParse serverURL = .ok u0 ∧
      (((ConfigureEnrolledTunnel env (.ok priv) w serverURL ott cp cfg).1 =
          afterRequest env priv w cp (enrollHttpRequest u0 ott
            (env.MarshalX25519PublicKey (env.ScalarBaseMult priv))) ∧
        (ConfigureEnrolledTunnel env (.ok priv) w serverURL ott cp cfg).2 ≠ .ret none) ∨
      (∃ resp sr, env.httpDo (enrollHttpRequest u0 ott
            (env.MarshalX25519PublicKey (env.ScalarBaseMult priv))) = .ok resp ∧
        resp.StatusCode = 200 ∧ env.decodeSignResponse resp.Body = .ok sr ∧
        ConfigureEnrolledTunnel env (.ok priv) w serverURL ott cp cfg =
          ({ afterRequest env priv w cp (enrollHttpRequest u0 ott
                (env.MarshalX25519PublicKey (env.ScalarBaseMult priv))) with
              fs := (CreateTempConfig env (keysWritten env priv w.fs cp) sr cp (privKeyPath cp)
                cfg.CACert).1 },
            .ret (CreateTempConfig env (keysWritten env priv w.fs cp) sr cp (privKeyPath cp)
              cfg.CACert).2)))) := by
  rcases createTempKey_cases env priv w cp with ⟨m, h⟩ | ⟨m, h⟩ | h
  · left; simp only [ConfigureEnrolledTunnel, h]; simp
  · left; simp only [ConfigureEnrolledTunnel, h]; simp
  · have hpub := (keysWritten_files env priv w.fs cp).1
    rcases EnrollOnServer_cases env { w with fs := keysWritten env priv w.fs cp } serverURL ott
      (pubKeyPath cp) with ⟨e, hs⟩ | ⟨pem, hf, hs⟩
    · left; simp only [ConfigureEnrolledTunnel, h, hs]; simp
    · have hpem : pem = env.MarshalX25519PublicKey (env.ScalarBaseMult priv) := by
        have := hf.symm.trans hpub
        exact Entry.file.inj this
      subst hpem
      rcases hs with ⟨e, -, hs⟩ | ⟨u0, hu, hs⟩
      · left; simp only [ConfigureEnrolledTunnel, h, hs]; simp
      · right
        refine ⟨u0, hu, ?_⟩
        rcases hs with ⟨e, h1, hs⟩ | ⟨resp, e, h1, h2, h3, hs⟩ | ⟨resp, ce, h1, h2, h3, hs⟩ |
          ⟨resp, e, h1, h2, h3, hs⟩ | ⟨resp, sr, h1, h2, h3, hs⟩
        · left; simp only [ConfigureEnrolledTunnel, h, hs, afterRequest]; simp
        · left; simp only [ConfigureEnrolledTunnel, h, hs, afterRequest]; simp
        · left; simp only [ConfigureEnrolledTunnel, h, hs, afterRequest]; simp
        · left; simp only [ConfigureEnrolledTunnel, h, hs, afterRequest]; simp
        · right
          exact ⟨resp, sr, h1, h2, h3,
            by simp only [ConfigureEnrolledTunnel, h, hs, afterRequest]⟩

/-- After `CreateTempConfig` on a state with the keys written, the key files
are as `createTempKey` left them. -/
theorem keys_after_CreateTempConfig (env : Env) (priv : Key) (fs : FS) (sr : SignResponse)
    (cp pk ca : String) :
    (CreateTempConfig env (keysWritten env priv fs cp) sr cp pk ca).1 (pubKeyPath cp) =
        .file (env.MarshalX25519PublicKey (env.ScalarBaseMult priv)) ∧
    (CreateTempConfig env (keysWritten env priv fs cp) sr cp pk ca).1 (privKeyPath cp) =
        .file (env.MarshalX25519PrivateKey priv) := by
  obtain ⟨⟨a1, a2⟩, ⟨b1, b2⟩, ⟨c1, c2⟩, ⟨d1, d2⟩⟩ := artifacts_ne_keys cp
  obtain ⟨k1, k2⟩ := keysWritten_files env priv fs cp
  constructor
  · rw [CreateTempConfig_frame _ _ _ _ _ _ _ a1.symm b1.symm c1.symm d1.symm]; exact k1
  · rw [CreateTempConfig_frame _ _ _ _ _ _ _ a2.symm b2.symm c2.symm d2.symm]; exact k2

/-- A successful `CreateTempConfig` for the private key file of
`createTempKey` has written a configuration whose `pki.key` is `node.key`. -/
theorem config_names_node_key (env : Env) (fs : FS) (sr : SignResponse) (cp ca : String)
    (h : (CreateTempConfig env fs sr cp (privKeyPath cp) ca).2 = none) :
    (CreateTempConfig env fs sr cp (privKeyPath cp) ca).1 (controllerSetConfigPath cp) =
        .file (env.yamlMarshal (minNodeConfig sr cp (privKeyPath cp))) ∧
    (minNodeConfig sr cp (privKeyPath cp)).PKI.Key = "node.key" := by
  constructor
  · rw [CreateTempConfig_of_created env fs sr cp (privKeyPath cp) ca (by simp [h]) (by simp [h])
      (by simp [h])]
    exact (seeded_files env fs sr cp (privKeyPath cp) ca).2.2
  · rw [minNodeConfig_eq]
    exact filepathBase_join cp "node.key" isElem_node_key

/-- C3, as stated, fails in its last part: in a directory `conf` that an
earlier run has provisioned, a run whose signing request is answered 401
aborts after `createTempKey`; the certificate and the configuration of the
earlier run are still there, and `node.key`, the key that configuration names,
is now the private key of the aborted run. -/
theorem C3_earlier_response_with_new_key :
    (ConfigureOIDCTunnel demoEnv (.ok demoKey) ⟨provisionedFS, []⟩ "bad" "conf" demoConfig).2 =
      .fatal "bad token" ∧
    (ConfigureOIDCTunnel demoEnv (.ok demoKey) ⟨provisionedFS, []⟩ "bad" "conf" demoConfig).1.fs
      (certFilePath "conf") = .file "OLD-CERT" ∧
    (ConfigureOIDCTunnel demoEnv (.ok demoKey) ⟨provisionedFS, []⟩ "bad" "conf" demoConfig).1.fs
      (controllerSetConfigPath "conf") = .file "OLD-CONFIG" ∧
    provisionedFS (privKeyPath "conf") = .file "OLD-KEY" ∧
    (ConfigureOIDCTunnel demoEnv (.ok demoKey) ⟨provisionedFS, []⟩ "bad" "conf" demoConfig).1.fs
      (privKeyPath "conf") = .file (demoEnv.MarshalX25519PrivateKey demoKey) ∧
    demoEnv.MarshalX25519PrivateKey demoKey ≠ "OLD-KEY" := by
  refine ⟨by decide, by decide, by decide, by decide, by decide, by decide⟩

/-- C3, amended: in `ConfigureOIDCTunnel` and in `ConfigureEnrolledTunnel` the
public key sent to the controller and the private key the configuration
derived in the run refers to come from the one `createTempKey` call of the
run.  For the 32 random bytes `priv` of the run: a run hands at most one
request to the HTTP client; its `public_key` is the marshalled curve25519
base-point multiple of `priv`, which is the content of `node.pub`, while
`node.key` holds the marshalled `priv`; and a run that succeeds has written,
from the response to that very request, a configuration whose `pki.key` is
`node.key`. -/
theorem C3_request_and_key_of_one_run (env : Env) (priv : Key) (w : World)
    (token serverURL ott cp : String) (cfg : NebulaConfig) :
    (((ConfigureOIDCTunnel env (.ok priv) w token cp cfg).1.sent = w.sent ∨
        ((ConfigureOIDCTunnel env (.ok priv) w token cp cfg).1.sent =
            w.sent ++ [signHttpRequest cfg token
              (env.MarshalX25519PublicKey (env.ScalarBaseMult priv))] ∧
          (ConfigureOIDCTunnel env (.ok priv) w token cp cfg).1.fs (pubKeyPath cp) =
            .file (env.MarshalX25519PublicKey (env.ScalarBaseMult priv)) ∧
          (ConfigureOIDCTunnel env (.ok priv) w token cp cfg).1.fs (privKeyPath cp) =
            .file (env.MarshalX25519PrivateKey priv))) ∧
      ((ConfigureOIDCTunnel env (.ok priv) w token cp cfg).2 = .ret none →
        ∃ resp sr,
          (ConfigureOIDCTunnel env (.ok priv) w token cp cfg).1.sent =
            w.sent ++ [signHttpRequest cfg token
              (env.MarshalX25519PublicKey (env.ScalarBaseMult priv))] ∧
          env.httpDo (signHttpRequest cfg token
            (env.MarshalX25519PublicKey (env.ScalarBaseMult priv))) = .ok resp ∧
          env.decodeSignResponse resp.Body = .ok sr ∧
          (ConfigureOIDCTunnel env (.ok priv) w token cp cfg).1.fs (controllerSetConfigPath cp) =
            .file (env.yamlMarshal (minNodeConfig sr cp (privKeyPath cp))) ∧
          (minNodeConfig sr cp (privKeyPath cp)).PKI.Key = "node.key")) ∧
    (((ConfigureEnrolledTunnel env (.ok priv) w serverURL ott cp cfg).1.sent = w.sent ∨
        ∃ u0, env.urlParse serverURL = .ok u0 ∧
          (ConfigureEnrolledTunnel env (.ok priv) w serverURL ott cp cfg).1.sent =
            w.sent ++ [enrollHttpRequest u0 ott
              (env.MarshalX25519PublicKey (env.ScalarBaseMult priv))] ∧
          (ConfigureEnrolledTunnel env (.ok priv) w serverURL ott cp cfg).1.fs (pubKeyPath cp) =
            .file (env.MarshalX25519PublicKey (env.ScalarBaseMult priv)) ∧
          (ConfigureEnrolledTunnel env (.ok priv) w serverURL ott cp cfg).1.fs (privKeyPath cp) =
            .file (env.MarshalX25519PrivateKey priv)) ∧
      ((ConfigureEnrolledTunnel env (.ok priv) w serverURL ott cp cfg).2 = .ret none →
        ∃ u0 resp sr, env.urlParse serverURL = .ok u0 ∧
          (ConfigureEnrolledTunnel env (.ok priv) w serverURL ott cp cfg).1.sent =
            w.sent ++ [enrollHttpRequest u0 ott
              (env.MarshalX25519PublicKey (env.ScalarBaseMult priv))] ∧
          env.httpDo (enrollHttpRequest u0 ott
            (env.MarshalX25519PublicKey (env.ScalarBaseMult priv))) = .ok resp ∧
          env.decodeSignResponse resp.Body = .ok sr ∧
          (ConfigureEnrolledTunnel env (.ok priv) w serverURL ott cp cfg).1.fs
              (controllerSetConfigPath cp) =
            .file (env.yamlMarshal (minNodeConfig sr cp (privKeyPath cp))) ∧
          (minNodeConfig sr cp (privKeyPath cp)).PKI.Key = "node.key")) := by
  obtain ⟨k1, k2⟩ := keysWritten_files env priv w.fs cp
  constructor
  · rcases ConfigureOIDCTunnel_cases env priv w token cp cfg with ⟨h1, h2⟩ | ⟨e, _, h⟩ |
      ⟨resp, _, _, h⟩ | ⟨resp, e, _, _, _, h⟩ | ⟨resp, sr, hd, _, hdec, h⟩
    · exact ⟨Or.inl h1, fun hn => absurd hn h2⟩
    · rw [h]; exact ⟨Or.inr ⟨rfl, k1, k2⟩, fun hn => by simp at hn⟩
    · rw [h]; exact ⟨Or.inr ⟨rfl, k1, k2⟩, fun hn => by simp at hn⟩
    · rw [h]; exact ⟨Or.inr ⟨rfl, k1, k2⟩, fun hn => by simp at hn⟩
    · rw [h]
      obtain ⟨q1, q2⟩ := keys_after_CreateTempConfig env priv w.fs sr cp (privKeyPath cp)
        cfg.CACert
      refine ⟨Or.inr ⟨rfl, q1, q2⟩, fun hn => ?_⟩
      have hn2 : (CreateTempConfig env (keysWritten env priv w.fs cp) sr cp (privKeyPath cp)
          cfg.CACert).2 = none := by simpa using hn
      obtain ⟨c1, c2⟩ := config_names_node_key env _ sr cp cfg.CACert hn2
      exact ⟨resp, sr, rfl, hd, hdec, c1, c2⟩
  · rcases ConfigureEnrolledTunnel_cases env priv w serverURL ott cp cfg with ⟨h1, h2⟩ |
      ⟨u0, hu, ⟨h1, h2⟩ | ⟨resp, sr, hd, _, hdec, h⟩⟩
    · exact ⟨Or.inl h1, fun hn => absurd hn h2⟩
    · refine ⟨Or.inr ⟨u0, hu, ?_⟩, fun hn => absurd hn h2⟩
      rw [h1]; exact ⟨rfl, k1, k2⟩
    · rw [h]
      obtain ⟨q1, q2⟩ := keys_after_CreateTempConfig env priv w.fs sr cp (privKeyPath cp)
        cfg.CACert
      refine ⟨Or.inr ⟨u0, hu, rfl, q1, q2⟩, fun hn => ?_⟩
      have hn2 : (CreateTempConfig env (keysWritten env priv w.fs cp) sr cp (privKeyPath cp)
          cfg.CACert).2 = none := by simpa using hn
      obtain ⟨c1, c2⟩ := config_names_node_key env _ sr cp cfg.CACert hn2
      exact ⟨u0, resp, sr, hu, rfl, hd, hdec, c1, c2⟩

/-- C3 on the sample controller: the run with the bearer token `T` in an empty
directory `conf` succeeds, and the configuration it wrote comes from the
response to the request that carried the public key of the run. -/
theorem C3_request_and_key_of_one_run_witness :
    (ConfigureOIDCTunnel demoEnv (.ok demoKey) ⟨emptyFS, []⟩ "T" "conf" demoConfig).2 =
      .ret none ∧
    ∃ resp sr,
      (ConfigureOIDCTunnel demoEnv (.ok demoKey) ⟨emptyFS, []⟩ "T" "conf" demoConfig).1.sent =
        [] ++ [signHttpRequest demoConfig "T"
          (demoEnv.MarshalX25519PublicKey (demoEnv.ScalarBaseMult demoKey))] ∧
      demoEnv.httpDo (signHttpRequest demoConfig "T"
        (demoEnv.MarshalX25519PublicKey (demoEnv.ScalarBaseMult demoKey))) = .ok resp ∧
      demoEnv.decodeSignResponse resp.Body = .ok sr ∧
      (ConfigureOIDCTunnel demoEnv (.ok demoKey) ⟨emptyFS, []⟩ "T" "conf" demoConfig).1.fs
          (controllerSetConfigPath "conf") =
        .file (demoEnv.yamlMarshal (minNodeConfig sr "conf" (privKeyPath "conf"))) ∧
      (minNodeConfig sr "conf" (privKeyPath "conf")).PKI.Key = "node.key" :=
  ⟨by decide,
    (C3_request_and_key_of_one_run demoEnv demoKey ⟨emptyFS, []⟩ "T"
      "https://ctrl.example.com/api" "OTT" "conf" demoConfig).1.2 (by decide)⟩

/-- C4, as stated, fails: in a directory `conf` that holds the certificate of
an earlier run, a run whose signing request is answered 401 aborts, and
`node.crt` is still present afterwards. -/
theorem C4_earlier_artifacts_remain :
    demoEnv.httpDo (signHttpRequest demoConfig "bad"
      (demoEnv.MarshalX25519PublicKey (demoEnv.ScalarBaseMult demoKey))) =
        .ok ⟨401, "bad token"⟩ ∧
    (ConfigureOIDCTunnel demoEnv (.ok demoKey) ⟨oldCertFS, []⟩ "bad" "conf" demoConfig).2 =
      .fatal "bad token" ∧
    (ConfigureOIDCTunnel demoEnv (.ok demoKey) ⟨oldCertFS, []⟩ "bad" "conf" demoConfig).1.fs
      (certFilePath "conf") = .file "OLD-CERT" :=
  ⟨rfl, by decide, by decide⟩

/-- C4, amended: for every run of `ConfigureOIDCTunnel` in which the signing
endpoint answers with a status other than 200 (the run handed the request
`req` to the HTTP client and the answer `resp` to it has another status), the
run aborts with `log.Fatalf` on the body of the answer, so that no error value
is returned and `CreateTempConfig` is not reached, and `node.crt`, `ca.crt`,
`zz_controller_config.yml` and `default.yml` in the configuration directory
are exactly as they were before the run (absent if they were absent). -/
theorem C4_abort_keeps_artifacts (env : Env) (random : Except String Key) (w : World)
    (token cp : String) (cfg : NebulaConfig) (req : HttpRequest) (resp : HttpResponse)
    (hsent : (ConfigureOIDCTunnel env random w token cp cfg).1.sent = w.sent ++ [req])
    (hdo : env.httpDo req = .ok resp) (hst : resp.StatusCode ≠ 200) :
    (ConfigureOIDCTunnel env random w token cp cfg).2 = .fatal resp.Body ∧
    (ConfigureOIDCTunnel env random w token cp cfg).1.fs (certFilePath cp) =
      w.fs (certFilePath cp) ∧
    (ConfigureOIDCTunnel env random w token cp cfg).1.fs (caFilePath cp) =
      w.fs (caFilePath cp) ∧
    (ConfigureOIDCTunnel env random w token cp cfg).1.fs (controllerSetConfigPath cp) =
      w.fs (controllerSetConfigPath cp) ∧
    (ConfigureOIDCTunnel env random w token cp cfg).1.fs (defaultConfigPath cp) =
      w.fs (defaultConfigPath cp) := by
  cases random with
  | error e =>
    simp only [ConfigureOIDCTunnel, createTempKey] at hsent
    exact absurd hsent (sent_ne_self _ _)
  | ok priv =>
    have hreq : ∀ r, w.sent ++ [r] = w.sent ++ [req] → r = req := by
      intro r h; simpa using h
    rcases ConfigureOIDCTunnel_cases env priv w token cp cfg with ⟨h1, -⟩ | ⟨e, h1, h⟩ |
      ⟨r, h1, _, h⟩ | ⟨r, e, h1, h2, _, h⟩ | ⟨r, sr, h1, h2, _, h⟩
    · rw [h1] at hsent; exact absurd hsent (sent_ne_self _ _)
    · rw [h] at hsent
      rw [hreq _ hsent, hdo] at h1
      cases h1
    · rw [h] at hsent ⊢
      rw [hreq _ hsent, hdo] at h1
      cases h1
      obtain ⟨⟨a1, a2⟩, ⟨b1, b2⟩, ⟨c1, c2⟩, ⟨d1, d2⟩⟩ := artifacts_ne_keys cp
      exact ⟨rfl, keysWritten_other _ _ _ _ _ a1 a2, keysWritten_other _ _ _ _ _ b1 b2,
        keysWritten_other _ _ _ _ _ c1 c2, keysWritten_other _ _ _ _ _ d1 d2⟩
    · rw [h] at hsent
      rw [hreq _ hsent, hdo] at h1
      cases h1
      exact absurd h2 hst
    · rw [h] at hsent
      rw [hreq _ hsent, hdo] at h1
      cases h1
      exact absurd h2 hst

/-- C4 amended, on the sample controller and the directory with the earlier
certificate. -/
theorem C4_abort_keeps_artifacts_witness :
    (ConfigureOIDCTunnel demoEnv (.ok demoKey) ⟨oldCertFS, []⟩ "bad" "conf" demoConfig).2 =
      .fatal "bad token" ∧
    (ConfigureOIDCTunnel demoEnv (.ok demoKey) ⟨oldCertFS, []⟩ "bad" "conf" demoConfig).1.fs
      (caFilePath "conf") = oldCertFS (caFilePath "conf") :=
  have h := C4_abort_keeps_artifacts demoEnv (.ok demoKey) ⟨oldCertFS, []⟩ "bad" "conf"
    demoConfig (signHttpRequest demoConfig "bad"
      (demoEnv.MarshalX25519PublicKey (demoEnv.ScalarBaseMult demoKey))) ⟨401, "bad token"⟩
    (by decide) rfl (by decide)
  ⟨h.1, h.2.2.1⟩

/-! ## Endpoint URLs -/

theorem cleanL_double_slash (a b : List Char) (ha : a ≠ []) :
    cleanL (a ++ '/' :: '/' :: b) = cleanL (a ++ '/' :: b) := by
  have hsp : splitSlash ('/' :: b) = [] :: splitSlash b := by simp [splitSlash]
  unfold cleanL
  simp only [head?_append_of_ne_nil a _ ha, splitSlash_append_slash, hsp, List.foldl_append,
    List.foldl_cons, cleanStep_nil]

theorem pathJoin_pair_of_ne (d name : String) (hd : d ≠ "") :
    pathJoin [d, name] = ⟨cleanL (d.data ++ '/' :: name.data)⟩ := by
  simp [pathJoin, hd, List.dropWhile, joinSlash]

/-- A slash at the end of a base path that is not empty makes no difference to
the joined path. -/
theorem pathJoin_trailing_slash (p s : String) (hp : p ≠ "") :
    pathJoin [p ++ "/", s] = pathJoin [p, s] := by
  have hp2 : p ++ "/" ≠ "" := by
    intro h
    have := congrArg String.length h
    simp at this
    exact absurd this.2 (by decide)
  rw [pathJoin_pair_of_ne _ _ hp2, pathJoin_pair_of_ne _ _ hp]
  have hd : (p ++ "/").data = p.data ++ ['/'] := by simp
  rw [hd, List.append_assoc]
  simp only [List.singleton_append]
  rw [cleanL_double_slash _ _ (data_ne_nil_of_ne_empty p hp)]

/-- Joining a plain element to a rooted path that is already clean and is not
the root appends it after a slash. -/
theorem cleanL_rooted_clean_append (a n : List Char) (hn : IsElem n)
    (hr : a.head? = some '/') (hc : cleanL a = a) (hne : a ≠ ['/']) :
    cleanL (a ++ '/' :: n) = a ++ '/' :: n := by
  have ha0 : a ≠ [] := by
    intro h; rw [h] at hr; simp at hr
  have ha : '/' :: joinSlash ((splitSlash a).foldl (cleanStep true) []).reverse = a := by
    have := hc
    unfold cleanL at this
    simpa [hr] using this
  rw [cleanL_append_elem a n ha0 hn, if_pos hr, joinSlash_append_singleton]
  split
  · rename_i h
    rw [h] at ha
    exact absurd ha.symm hne
  · rw [← List.cons_append, ha]

theorem cleanL_root_append (n : List Char) (hn : IsElem n) :
    cleanL ('/' :: '/' :: n) = '/' :: n := by
  have := cleanL_append_elem ['/'] n (by simp) hn
  simpa [splitSlash, cleanStep, joinSlash] using this

theorem data_append_slash (p s : String) :
    (p ++ "/" ++ s).data = p.data ++ '/' :: s.data := by
  simp

/-- The joined path for a rooted, clean base path. -/
theorem pathJoin_rooted_clean (p s : String) (hs : IsElem s.data) (hr : IsAbs p = true)
    (hc : Clean p = p) :
    pathJoin [p, s] = if p = "/" then "/" ++ s else p ++ "/" ++ s := by
  have hr2 : p.data.head? = some '/' := by simpa [IsAbs] using hr
  have hp : p ≠ "" := by
    intro h; rw [h] at hr2; simp at hr2
  rw [pathJoin_pair_of_ne _ _ hp]
  by_cases h1 : p = "/"
  · subst h1
    simp only [if_true]
    apply String.ext
    simp only [List.singleton_append]
    rw [cleanL_root_append _ hs]
    simp
  · simp only [h1, if_false]
    apply String.ext
    have hc2 : cleanL p.data = p.data := by
      have := congrArg String.data hc
      simpa [Clean] using this
    have hne : p.data ≠ ['/'] := by
      intro h
      apply h1
      apply String.ext
      rw [h]
    rw [data_append_slash]
    exact cleanL_rooted_clean_append _ _ hs hr2 hc2 hne

/-- With a host, an empty base path and the base path `/` give the same
request URL: the rendering puts the slash before a path that lacks one. -/
theorem String_of_empty_base_path (u : URL) (s : String) (hs : s = "config" ∨ s = "enroll")
    (hp : u.Path = "") (hraw : u.RawPath = "") (hh : u.Host ≠ "") :
    (endpoint { u with Path := u.Path ++ "/" } s).String = (endpoint u s).String := by
  have c1 : pathJoin ["" ++ "/", "config"] = "/config" := by decide
  have c2 : pathJoin ["", "config"] = "config" := by decide
  have c3 : pathJoin ["" ++ "/", "enroll"] = "/enroll" := by decide
  have c4 : pathJoin ["", "enroll"] = "enroll" := by decide
  have x1 : escape "config" .encodePath = "config" := by decide
  have x2 : escape "/config" .encodePath = "/config" := by decide
  have x3 : escape "enroll" .encodePath = "enroll" := by decide
  have x4 : escape "/enroll" .encodePath = "/enroll" := by decide
  rcases hs with rfl | rfl
  · simp only [endpoint, hp, c1, c2]
    have y : ("/" : String) ++ "config" = "/config" := by decide
    unfold URL.String URL.EscapedPath URL.EscapedFragment
    simp [hraw, hh, x1, x2, String.append_assoc, y]
  · simp only [endpoint, hp, c3, c4]
    have y : ("/" : String) ++ "enroll" = "/enroll" := by decide
    unfold URL.String URL.EscapedPath URL.EscapedFragment
    simp [hraw, hh, x3, x4, String.append_assoc, y]

/-- C6, as stated, fails.  The request path is not always the base path
followed by `/` and the suffix: for the base `https://ctrl.example.com/v1/../api`
it is `/api/config`.  And the two request URLs are not always the same: for
the base `http:`, with a scheme and neither host nor path, they are
`http://config` and, with `/` for its path, `http:///config`. -/
theorem C6_path_is_cleaned :
    (endpoint dotdotBase "config").Path = "/api/config" ∧
    (endpoint dotdotBase "config").Path ≠ dotdotBase.Path ++ "/" ++ "config" ∧
    (endpoint schemeOnlyBase "config").String = "http://config" ∧
    (endpoint { schemeOnlyBase with Path := schemeOnlyBase.Path ++ "/" } "config").String =
      "http:///config" := by
  refine ⟨by decide, by decide, by decide, by decide⟩

/-- C6, amended: the endpoint URLs of `GetControllerInfo` (suffix `config`) and
`EnrollOnServer` (suffix `enroll`) are built with `path.Join`, which tolerates
a trailing slash.  For every parsed base URL whose path is not empty, or
whose path is empty (no raw path either) and whose host is not empty, the
request URL built from the base and the one built from the base with `/`
appended to its path are the same.  The request path is the cleaned form of
base path, `/` and suffix: for a rooted base path that is already clean and is
not `/` it is the base path followed by `/` and the suffix, for the base path
`/` it is `/` and the suffix, and for an empty base path it is the bare
suffix, which the URL shows as `/` and the suffix after a host. -/
theorem C6_endpoint_tolerates_trailing_slash (u : URL) (s : String)
    (hs : s = "config" ∨ s = "enroll") :
    ((u.Path ≠ "" ∨ (u.RawPath = "" ∧ u.Host ≠ "")) →
      (endpoint { u with Path := u.Path ++ "/" } s).String = (endpoint u s).String) ∧
    (u.Path ≠ "" → (endpoint u s).Path = Clean (u.Path ++ "/" ++ s)) ∧
    (u.Path = "" → (endpoint u s).Path = s) ∧
    (u.Path = "/" → (endpoint u s).Path = "/" ++ s) ∧
    (IsAbs u.Path = true → Clean u.Path = u.Path → u.Path ≠ "/" →
      (endpoint u s).Path = u.Path ++ "/" ++ s) := by
  have hel : IsElem s.data := by
    rcases hs with rfl | rfl <;> decide
  refine ⟨?_, ?_, ?_, ?_, ?_⟩
  · intro h
    by_cases hp : u.Path = ""
    · rcases h with h | ⟨h1, h2⟩
      · exact absurd hp h
      · exact String_of_empty_base_path u s hs hp h1 h2
    · have : endpoint { u with Path := u.Path ++ "/" } s = endpoint u s := by
        simp only [endpoint, pathJoin_trailing_slash _ _ hp]
      rw [this]
  · intro hp
    simp only [endpoint, pathJoin_pair_of_ne _ _ hp, Clean, data_append_slash]
  · intro hp
    rcases hs with rfl | rfl <;> simp only [endpoint, hp] <;> decide
  · intro hp
    rcases hs with rfl | rfl <;> simp only [endpoint, hp] <;> decide
  · intro hr hc hne
    simp only [endpoint, pathJoin_rooted_clean _ _ hel hr hc, hne, if_false]

/-- C6 amended, on the base URLs `https://ctrl.example.com/api` and
`https://ctrl.example.com/api/`: both give `https://ctrl.example.com/api/config`. -/
theorem C6_endpoint_tolerates_trailing_slash_witness :
    (endpoint demoBase "config").String = "https://ctrl.example.com/api/config" ∧
    (endpoint { demoBase with Path := demoBase.Path ++ "/" } "config").String =
      (endpoint demoBase "config").String ∧
    (endpoint demoBase "config").Path = demoBase.Path ++ "/" ++ "config" :=
  have h := C6_endpoint_tolerates_trailing_slash demoBase "config" (Or.inl rfl)
  ⟨by decide, h.1 (Or.inl (by decide)), h.2.2.2.2 (by decide) (by decide) (by decide)⟩

/-! ## The directory of a run of `main` -/

/-- C9: the code at the relative `config_path` `conf`, for a process started
in `/home/u`.  The process changes into `/home/u/conf`, and the files of the
run are then named `conf/...` relative to that directory: they are looked for
and written in `/home/u/conf/conf`, not in the directory `config_path` names.
With the default `.` and with an absolute `config_path` they are where the
claim says. -/
theorem C9_relative_config_path_is_applied_twice :
    osChdir "/home/u" "conf" = "/home/u/conf" ∧
    mainArtifactLocations "/home/u" "conf" =
      ["/home/u/conf/conf/metadata.json", "/home/u/conf/conf/node.pub",
        "/home/u/conf/conf/node.key", "/home/u/conf/conf/node.crt",
        "/home/u/conf/conf/ca.crt", "/home/u/conf/conf/zz_controller_config.yml"] ∧
    mainArtifactLocations "/home/u" "conf" ≠ filesIn (osChdir "/home/u" "conf") ∧
    mainArtifactLocations "/home/u" "." = filesIn (osChdir "/home/u" ".") ∧
    mainArtifactLocations "/home/u" "/etc/nebula" = filesIn (osChdir "/home/u" "/etc/nebula") := by
  refine ⟨by decide, by decide, by decide, by decide, by decide⟩

end NebulaHelper
